import Mathlib

/-!
Shallow embedding of the ONNX→TensorFlow operator lowering engine
(`src/onnx_tf/backends/backend_v1.py`) and verification of the
specification's claims about it.

Tensors are modelled as a dtype tag, a shape, and a total valuation
`List Nat → ℚ` of (row-major) multi-indices; indices outside the shape
carry irrelevant garbage, and all statements about tensor contents are
relative to in-range indices.  Python lists of attribute integers are
`List Int`; Python's negative-index access and in-place element update
are modelled explicitly.  A lowering rule that can raise (`KeyError` on a
required attribute, a missing symbol-table entry, …) returns `Except`.
NumPy's NaN padding sentinel is modelled by `Option`: `none` is the
sentinel, which the window reductions discard exactly as
`np.where(~np.isnan _)` does.
-/

set_option autoImplicit false

namespace OnnxTf

/-- Element types of the target engine that the lowering manipulates. -/
inductive DType where
  | float32
  | float64
  | int32
  | int64
  | boolT
  deriving DecidableEq, Repr

/-- Typed attribute values of an interchange-format node
(`node.attrs` values in `backend_v1.py`). -/
inductive AttrValue where
  | int (i : Int)
  | ints (l : List Int)
  | str (s : String)
  | num (q : ℚ)
  deriving DecidableEq, Repr

/-- The `node.attrs` mapping, as an association list (first hit wins). -/
abbrev Attrs := List (String × AttrValue)

/-- Lookup of `node.attrs[k]` / `node.attrs.get(k)`. -/
def Attrs.find : Attrs → String → Option AttrValue
  | [], _ => none
  | (k', v') :: rest, k => if k' = k then some v' else Attrs.find rest k

/-- In-place overwrite of the value stored under a key (the effect of
mutating, through an alias, the list object held in `node.attrs`). -/
def Attrs.set : Attrs → String → AttrValue → Attrs
  | [], k, v => [(k, v)]
  | (k', v') :: rest, k, v =>
      if k' = k then (k, v) :: rest else (k', v') :: Attrs.set rest k v

@[simp] theorem Attrs.find_nil (k : String) : Attrs.find [] k = none := rfl

theorem Attrs.find_set_ne (a : Attrs) (k k' : String) (v : AttrValue)
    (h : k ≠ k') : (a.set k v).find k' = a.find k' := by
  induction a with
  | nil => simp [Attrs.set, Attrs.find, h]
  | cons p rest ih =>
      by_cases hk : p.1 = k
      · simp [Attrs.set, Attrs.find, hk, h]
      · simp only [Attrs.set, hk, if_false]
        by_cases hk' : p.1 = k' <;> simp [Attrs.find, hk', ih]

/-- One interchange-format operator instance (`onnx_tf`'s node wrapper). -/
structure Node where
  name : String
  opType : String
  attrs : Attrs
  inputs : List String
  outputs : List String
  deriving DecidableEq, Repr

/-- A lowered tensor handle: element-type tag, static shape, and a
row-major valuation of multi-indices. -/
structure Tensor where
  dtype : DType := .float32
  shape : List Nat
  data : List Nat → ℚ

/-- The symbol table mapping tensor names to lowered handles
(`input_dict`). -/
abbrev SymTable := List (String × Tensor)

def SymTable.find : SymTable → String → Option Tensor
  | [], _ => none
  | (k', v') :: rest, k => if k' = k then some v' else SymTable.find rest k

/-- Failures a lowering rule can raise. -/
inductive LowerErr where
  | missingAttr (attr : String)   -- `KeyError` on `node.attrs[attr]`
  | invalidAttr (attr : String)   -- attribute unusable (e.g. `.get` gave `None`)
  | missingInput (name : String)  -- `KeyError` on `input_dict[name]`
  | noInput (i : Nat)             -- `IndexError` on `node.inputs[i]`
  | indexErr                      -- bare `IndexError` on a Python list access
  deriving DecidableEq, Repr

@[simp] theorem exceptBind_ok {ε α β : Type} (a : α) (f : α → Except ε β) :
    (Except.ok a : Except ε α) >>= f = f a := rfl

@[simp] theorem exceptBind_error {ε α β : Type} (e : ε)
    (f : α → Except ε β) :
    (Except.error e : Except ε α) >>= f = Except.error e := rfl

/-- `input_dict[node.inputs[i]]`. -/
def getInput (node : Node) (env : SymTable) (i : Nat) : Except LowerErr Tensor :=
  match node.inputs.get? i with
  | none => .error (.noInput i)
  | some nm =>
      match env.find nm with
      | none => .error (.missingInput nm)
      | some t => .ok t

/-- `node.attrs[k]` for an integer-list attribute (required). -/
def getAttrInts (node : Node) (k : String) : Except LowerErr (List Int) :=
  match node.attrs.find k with
  | some (.ints l) => .ok l
  | some _ => .error (.invalidAttr k)
  | none => .error (.missingAttr k)

/-- `node.attrs.get(k, default)` for an integer-list attribute. -/
def getAttrIntsD (node : Node) (k : String) (dflt : List Int) :
    Except LowerErr (List Int) :=
  match node.attrs.find k with
  | some (.ints l) => .ok l
  | some _ => .error (.invalidAttr k)
  | none => .ok dflt

/-- `node.attrs[k]` for an integer attribute (required). -/
def getAttrInt (node : Node) (k : String) : Except LowerErr Int :=
  match node.attrs.find k with
  | some (.int i) => .ok i
  | some _ => .error (.invalidAttr k)
  | none => .error (.missingAttr k)

/-- `node.attrs.get(k, default)` for an integer attribute. -/
def getAttrIntD (node : Node) (k : String) (dflt : Int) : Except LowerErr Int :=
  match node.attrs.find k with
  | some (.int i) => .ok i
  | some _ => .error (.invalidAttr k)
  | none => .ok dflt

/-- Python list read `l[i]` with negative indices counting from the end
(out-of-range reads, which raise in Python, return a default here and
are excluded by the theorems' hypotheses). -/
def pyIdx (l : List Int) (i : Int) : Int :=
  if i < 0 then l.getD (l.length - (-i).toNat) 0 else l.getD i.toNat 0

/-- Python list write `l[i] = v` with negative indices counting from the
end. -/
def pySet (l : List Int) (i : Int) (v : Int) : List Int :=
  if i < 0 then l.set (l.length - (-i).toNat) v else l.set i.toNat v

/-! ### `handle_slice` (backend_v1.py lines 778-800) -/

/-- Mutable state of the clamping loop in `handle_slice`: the `starts`
and `ends` attribute lists (mutated in place through their aliases) and
the fresh `full_begin` / `full_sizes` lists. -/
structure SliceState where
  starts : List Int
  ends : List Int
  fullBegin : List Int
  fullSizes : List Int
  deriving DecidableEq, Repr

/-- One iteration `i` of the loop in `handle_slice`. -/
def sliceStep (axes : List Int) (st : SliceState) (i : Nat) : SliceState :=
  let a := axes.getD i 0
  let e0 := st.ends.getD i 0
  let e1 := if e0 < 0 then pyIdx st.fullSizes a + e0 else e0
  let e2 := min (pyIdx st.fullSizes a) e1
  let s2 := min (pyIdx st.fullSizes a) (st.starts.getD i 0)
  { starts := st.starts.set i s2
    ends := st.ends.set i e2
    fullBegin := pySet st.fullBegin a s2
    fullSizes := pySet st.fullSizes a (e2 - s2) }

/-- The whole clamping loop of `handle_slice`. -/
def sliceClamp (fullSizes starts ends axes : List Int) : SliceState :=
  (List.range starts.length).foldl (sliceStep axes)
    ⟨starts, ends, List.replicate fullSizes.length 0, fullSizes⟩

/-- `tf.slice(x, begin, size)`: a size entry of `-1` means "all remaining
elements of that axis from `begin` on". -/
def tfSlice (x : Tensor) (begin_ sizes : List Int) : Tensor :=
  { dtype := x.dtype
    shape := List.zipWith
      (fun (bs : Int × Int) (d : Nat) =>
        if bs.2 = -1 then ((d : Int) - bs.1).toNat else bs.2.toNat)
      (begin_.zip sizes) x.shape
    data := fun idx =>
      x.data (List.zipWith (fun (i : Nat) (b : Int) => ((i : Int) + b).toNat)
        idx begin_) }

/-- Attribute map after `handle_slice` ran: the aliased `starts` and
`ends` lists now hold the clamped values. -/
def slicePostAttrs (a : Attrs) (st : SliceState) : Attrs :=
  (a.set "starts" (.ints st.starts)).set "ends" (.ints st.ends)

/-- `handle_slice`.  Returns the produced tensors together with the node
as it stands after the call: the clamping loop writes through the
aliases `starts`/`ends` into `node.attrs`. -/
def handle_slice (node : Node) (env : SymTable) :
    Except LowerErr (List Tensor × Node) := do
  let x ← getInput node env 0
  let starts ← getAttrInts node "starts"
  let ends ← getAttrInts node "ends"
  let axes ← getAttrIntsD node "axes" ((List.range starts.length).map Int.ofNat)
  let st := sliceClamp (x.shape.map Int.ofNat) starts ends axes
  let node' := { node with attrs := slicePostAttrs node.attrs st }
  return ([tfSlice x st.fullBegin st.fullSizes], node')

/-! Concrete slice instance used by the C1/C3 analysis: axis length 4,
`starts=[5]`, `ends=[-1]`, `axes=[0]`. -/

def sliceNode0 : Node :=
  { name := "slice0"
    opType := "Slice"
    attrs := [("starts", .ints [5]), ("ends", .ints [-1]), ("axes", .ints [0])]
    inputs := ["x0"]
    outputs := ["y0"] }

def sliceEnv0 : SymTable := [("x0", { shape := [4], data := fun _ => 0 })]

/-- C1, counterexample.  The claim asserts the effective end clamps to 4;
the code instead turns `ends = -1` into `4 + (-1) = 3` before clamping,
so the stored effective end is 3, not 4. -/
theorem slice_end_is_three_not_four_C1 :
    (handle_slice sliceNode0 sliceEnv0).map
        (fun r => (r.2.attrs.find "ends", r.2.attrs.find "starts"))
      = .ok (some (.ints [3]), some (.ints [4]))
    ∧ AttrValue.ints [3] ≠ AttrValue.ints [4] := by
  constructor
  · rfl
  · decide

/-- C1, amended.  With `starts=[5]`, `ends=[-1]`, `axes=[0]` on an axis
of length 4, the effective start clamps to 4 but the effective end
becomes `4 + (-1) = 3`; the size parameter handed to `tf.slice` is
therefore `3 - 4 = -1`, which `tf.slice` interprets as "to the end of
the axis", so the returned tensor is still empty along axis 0. -/
theorem slice_clamp_amended_C1 :
    (handle_slice sliceNode0 sliceEnv0).map
        (fun r => (r.2.attrs.find "starts", r.2.attrs.find "ends",
          r.1.map Tensor.shape))
      = .ok (some (.ints [4]), some (.ints [3]), [[0]]) := by
  rfl

/-- C3, counterexample.  A lowering rule does not leave its node
unchanged: `handle_slice` writes the clamped `starts`/`ends` back into
`node.attrs` through the aliased attribute lists. -/
theorem slice_mutates_node_C3 :
    (handle_slice sliceNode0 sliceEnv0).map (fun r => r.2.attrs.find "starts")
      = .ok (some (.ints [4]))
    ∧ sliceNode0.attrs.find "starts" = some (.ints [5])
    ∧ AttrValue.ints [4] ≠ AttrValue.ints [5] :=
  ⟨rfl, rfl, by decide⟩

/-- C3, amended.  `handle_slice` mutates exactly the `starts` and `ends`
entries of `node.attrs`, replacing them with the clamped values of its
loop; `node.name`, `node.inputs`, `node.outputs` and every other
attribute are left unchanged. -/
theorem slice_mutation_extent_amended_C3 (node : Node) (env : SymTable)
    (x : Tensor) (nm : String) (ss es axs : List Int)
    (hin : node.inputs.get? 0 = some nm)
    (henv : env.find nm = some x)
    (hss : node.attrs.find "starts" = some (.ints ss))
    (hes : node.attrs.find "ends" = some (.ints es))
    (haxs : node.attrs.find "axes" = some (.ints axs)) :
    ∃ outs node', handle_slice node env = .ok (outs, node')
      ∧ node'.name = node.name
      ∧ node'.inputs = node.inputs
      ∧ node'.outputs = node.outputs
      ∧ node'.attrs = slicePostAttrs node.attrs
          (sliceClamp (x.shape.map Int.ofNat) ss es axs)
      ∧ ∀ k, k ≠ "starts" → k ≠ "ends" →
          node'.attrs.find k = node.attrs.find k := by
  have hrun : handle_slice node env = .ok ([tfSlice x (sliceClamp (x.shape.map Int.ofNat) ss es axs).fullBegin (sliceClamp (x.shape.map Int.ofNat) ss es axs).fullSizes], { node with attrs := slicePostAttrs node.attrs (sliceClamp (x.shape.map Int.ofNat) ss es axs) }) := by
    unfold handle_slice getInput getAttrInts getAttrIntsD
    simp only [hin, henv, hss, hes, haxs]
    rfl
  refine ⟨_, _, hrun, rfl, rfl, rfl, rfl, ?_⟩
  intro k hks hke
  show (slicePostAttrs node.attrs _).find k = node.attrs.find k
  unfold slicePostAttrs
  rw [Attrs.find_set_ne _ _ _ _ (fun h => hke h.symm),
    Attrs.find_set_ne _ _ _ _ (fun h => hks h.symm)]

/-- C3, witness for the amended theorem at the concrete slice node. -/
theorem slice_mutation_extent_amended_witness_C3 :
    ∃ outs node', handle_slice sliceNode0 sliceEnv0 = .ok (outs, node')
      ∧ node'.name = sliceNode0.name
      ∧ node'.inputs = sliceNode0.inputs
      ∧ node'.outputs = sliceNode0.outputs
      ∧ node'.attrs = slicePostAttrs sliceNode0.attrs
          (sliceClamp ([4].map Int.ofNat) [5] [-1] [0])
      ∧ ∀ k, k ≠ "starts" → k ≠ "ends" →
          node'.attrs.find k = sliceNode0.attrs.find k := by
  have h := slice_mutation_extent_amended_C3 sliceNode0 sliceEnv0
    { shape := [4], data := fun _ => 0 } "x0" [5] [-1] [0]
    rfl rfl rfl rfl rfl
  exact h

/-! ### Shared tensor utilities -/

instance : Inhabited Tensor := ⟨{ shape := [], data := fun _ => 0 }⟩

attribute [ext] Tensor

/-- `range(a, b)`. -/
def natRange (a b : Nat) : List Nat := (List.range (b - a)).map (a + ·)

/-- `itertools.product(range(a₁,b₁), …, range(aₖ,bₖ))`, in row-major
(first component slowest) order. -/
def idxProduct : List (Nat × Nat) → List (List Nat)
  | [] => [[]]
  | r :: rs => (natRange r.1 r.2).flatMap
      (fun i => (idxProduct rs).map (i :: ·))

/-- All in-range multi-indices of a shape, row-major. -/
def allIndices (shape : List Nat) : List (List Nat) :=
  idxProduct (shape.map (fun d => (0, d)))

def qSum (l : List ℚ) : ℚ := l.sum

/-- `np.max` over a list (the empty case, which raises in NumPy, gives a
junk 0 and is excluded by hypotheses wherever it matters). -/
def qMaxL (l : List ℚ) : ℚ := l.foldl max (l.headD 0)

/-- `np.average` over a list. -/
def npAverage (l : List ℚ) : ℚ := qSum l / (l.length : ℚ)

/-- Index (first hit) of the maximal element, as `tf.argmax` does. -/
def argmaxIdx (l : List ℚ) : Nat :=
  (l.foldl (fun (acc : Nat × Nat × ℚ) v =>
      if acc.2.2 < v then (acc.2.1, acc.2.1 + 1, v)
      else (acc.1, acc.2.1 + 1, acc.2.2))
    (0, 0, l.headD 0)).1

/-- Index (first hit) of the minimal element, as `tf.argmin` does. -/
def argminIdx (l : List ℚ) : Nat :=
  (l.foldl (fun (acc : Nat × Nat × ℚ) v =>
      if v < acc.2.2 then (acc.2.1, acc.2.1 + 1, v)
      else (acc.1, acc.2.1 + 1, acc.2.2))
    (0, 0, l.headD 0)).1

/-- `tf.argmax(x, axis)`: drops the reduced axis, yields `int64` indices. -/
def tfArgmax (x : Tensor) (axis : Int) : Tensor :=
  let a := (if axis < 0 then (x.shape.length : Int) + axis else axis).toNat
  { dtype := .int64
    shape := x.shape.eraseIdx a
    data := fun idx => (argmaxIdx ((List.range (x.shape.getD a 0)).map
      (fun j => x.data (idx.insertIdx a j))) : ℚ) }

/-- `tf.argmin(x, axis)`. -/
def tfArgmin (x : Tensor) (axis : Int) : Tensor :=
  let a := (if axis < 0 then (x.shape.length : Int) + axis else axis).toNat
  { dtype := .int64
    shape := x.shape.eraseIdx a
    data := fun idx => (argminIdx ((List.range (x.shape.getD a 0)).map
      (fun j => x.data (idx.insertIdx a j))) : ℚ) }

/-! ### `handle_arg_max` / `handle_arg_min` (lines 44-62) -/

def argMaxWarn : String :=
  "Definition of ArgMax with keepdims enabled is incompatible between onnx and tensorflow."

def argMinWarn : String :=
  "Definition of ArgMin with keepdims enabled is incompatible between onnx and tensorflow."

def handle_arg_max (node : Node) (env : SymTable) :
    Except LowerErr (List Tensor × List String) := do
  let data ← getInput node env 0
  let axis ← getAttrInt node "axis"
  let keepdims ← getAttrIntD node "keepdims" 1
  let warns := if keepdims = 1 then [argMaxWarn] else []
  return ([tfArgmax data axis], warns)

def handle_arg_min (node : Node) (env : SymTable) :
    Except LowerErr (List Tensor × List String) := do
  let data ← getInput node env 0
  let axis ← getAttrInt node "axis"
  let keepdims ← getAttrIntD node "keepdims" 1
  let warns := if keepdims = 1 then [argMinWarn] else []
  return ([tfArgmin data axis], warns)

/-- Modelled from the spec: the host graph walker's per-node dispatch
(`onnx_tf/backend.py`, not under `src/`) invokes a lowering rule and
surfaces a fatal failure to the caller with the node identity attached
(§7, MissingAttribute propagation). -/
def lowerNodeWith {α : Type} (rule : Node → SymTable → Except LowerErr α)
    (node : Node) (env : SymTable) : Except (String × LowerErr) α :=
  match rule node env with
  | .error e => .error (node.name, e)
  | .ok v => .ok v

/-- C10: for every input tensor and every keepdims attribute value among
absent, 0 and 1, `handle_arg_max` and `handle_arg_min` return the
axis-dropped argmax/argmin tensor, whose rank is the input rank minus
one; keepdims never changes the returned tensor, it only controls the
incompatibility warning, which is emitted exactly when keepdims is 1 or
absent. -/
theorem arg_max_min_keepdims_C10 (node : Node) (env : SymTable) (nm : String)
    (x : Tensor) (a : Int)
    (hin : node.inputs.get? 0 = some nm) (henv : env.find nm = some x)
    (hax : node.attrs.find "axis" = some (.int a))
    (ha0 : 0 ≤ a) (halt : a.toNat < x.shape.length)
    (hkd : node.attrs.find "keepdims" = none ∨
      node.attrs.find "keepdims" = some (.int 0) ∨
      node.attrs.find "keepdims" = some (.int 1)) :
    handle_arg_max node env = .ok ([tfArgmax x a],
        if node.attrs.find "keepdims" = some (.int 0) then [] else [argMaxWarn])
    ∧ handle_arg_min node env = .ok ([tfArgmin x a],
        if node.attrs.find "keepdims" = some (.int 0) then [] else [argMinWarn])
    ∧ (tfArgmax x a).shape.length + 1 = x.shape.length
    ∧ (tfArgmin x a).shape.length + 1 = x.shape.length := by
  have hlen : ∀ y : Tensor, y.shape = x.shape.eraseIdx a.toNat →
      y.shape.length + 1 = x.shape.length := by
    intro y hy
    rw [hy, List.length_eraseIdx_of_lt halt]
    omega
  have hshape : (tfArgmax x a).shape = x.shape.eraseIdx a.toNat := by
    simp only [tfArgmax, if_neg (not_lt.mpr ha0)]
  have hshape' : (tfArgmin x a).shape = x.shape.eraseIdx a.toNat := by
    simp only [tfArgmin, if_neg (not_lt.mpr ha0)]
  refine ⟨?_, ?_, hlen _ hshape, hlen _ hshape'⟩
  · unfold handle_arg_max getInput getAttrInt getAttrIntD
    rcases hkd with h | h | h <;> simp only [hin, henv, hax, h] <;> rfl
  · unfold handle_arg_min getInput getAttrInt getAttrIntD
    rcases hkd with h | h | h <;> simp only [hin, henv, hax, h] <;> rfl

/-! ### Layout helpers (modelled from the spec, §4.1) -/

/-- Data layouts of the target engine. -/
inductive ChannelOrder where
  | channelsFirst
  | channelsLast
  deriving DecidableEq, Repr

/-- Modelled from the spec: `get_data_format` of the base backend
(`onnx_tf/backend.py`, not under `src/`): storage is channel-first;
compute equals storage when accelerated execution is available, and is
channel-last otherwise. -/
def get_data_format (_rank : Nat) (supportCuda : Bool) :
    ChannelOrder × ChannelOrder :=
  (.channelsFirst, if supportCuda then .channelsFirst else .channelsLast)

/-- Modelled from the spec: `get_perm_from_formats` of the base backend
(not under `src/`) — the permutation moving the channel axis from
position 1 to the last position, or its inverse. -/
def get_perm_from_formats (rank : Nat) (src dst : ChannelOrder) : List Nat :=
  if src = dst then List.range rank
  else if src = .channelsFirst then
    0 :: ((List.range (rank - 2)).map (· + 2) ++ [1])
  else 0 :: (rank - 1) :: (List.range (rank - 2)).map (· + 1)

/-- `tf.transpose(x, perm)`: output index `i` reads input axis `perm i`. -/
def tfTranspose (x : Tensor) (perm : List Nat) : Tensor :=
  { dtype := x.dtype
    shape := perm.map (fun a => x.shape.getD a 0)
    data := fun idx =>
      x.data ((List.range x.shape.length).map
        (fun a => idx.getD (perm.indexOf a) 0)) }

/-! ### Portable pooling fallback
(`_compatibility_pool` / `py_pool`, lines 64-160) -/

/-- Ceiling division as `int(np.ceil(float a / float b))` computes it for
a positive divisor. -/
def ceilDivQ (a b : Int) : Int :=
  if 0 ≤ a then ((a.toNat + (b.toNat - 1)) / b.toNat : Nat)
  else -(((-a).toNat / b.toNat : Nat))

def zipWith3 {α β γ δ : Type} (f : α → β → γ → δ) :
    List α → List β → List γ → List δ
  | a :: as, b :: bs, c :: cs => f a b c :: zipWith3 f as bs cs
  | _, _, _ => []

/-- `_get_output_shape` of `_compatibility_pool`. -/
def getOutputShape (autoPad : String) (inSpatial kernel strides : List Int) :
    List Int :=
  if autoPad = "SAME_UPPER" ∨ autoPad = "SAME_LOWER" then
    List.zipWith (fun d s => ceilDivQ d s) inSpatial strides
  else if autoPad = "VALID" ∨ autoPad = "" then
    zipWith3 (fun d k s => ceilDivQ (d - (k - 1)) s) inSpatial kernel strides
  else List.replicate inSpatial.length 0

/-- `_get_pad_shape` of `_compatibility_pool`. -/
def getPadShape (autoPad : String)
    (inSpatial kernel strides outSpatial : List Int) : List Int :=
  if autoPad = "SAME_UPPER" ∨ autoPad = "SAME_LOWER" then
    zipWith3 (fun (os : Int × Int) k d => (os.1 - 1) * os.2 + k - d)
      (outSpatial.zip strides) kernel inSpatial
  else List.replicate inSpatial.length 0

/-- Number of output positions the `py_pool` loop produces along one
spatial axis: `int((x + pad - k) / s + 1)` with Python float semantics
(`range` of a non-positive count is empty). -/
def loopCount (xi : Nat) (pi ki si : Int) : Nat :=
  if ki ≤ (xi : Int) + pi then ((xi : Int) + pi - ki).toNat / si.toNat + 1
  else 0

def loopCounts (x : Tensor) (kernel strides padShape : List Int) : List Nat :=
  zipWith3 (fun (dp : Nat × Int) k s => loopCount dp.1 dp.2 k s)
    ((x.shape.drop 2).zip padShape) kernel strides

/-- Componentwise strict bound check between two equal-length index
lists (an output position lies within the per-axis loop ranges). -/
def ltAll : List Nat → List Nat → Bool
  | [], [] => true
  | o :: os, b :: bs => decide (o < b) && ltAll os bs
  | _, _ => false

/-- The kernel window of padded-input positions for output position
`os`: `range(strides[i]*os[i], strides[i]*os[i] + kernel[i])` per axis. -/
def windowRanges (kernel strides : List Int) (os : List Nat) :
    List (Nat × Nat) :=
  List.zipWith (fun (o : Nat) (sk : Int × Int) =>
    (sk.1.toNat * o, sk.1.toNat * o + sk.2.toNat)) os (strides.zip kernel)

/-- The NaN-padded input of `py_pool` at batch `n`, channel `c` and
padded spatial position `js`; `none` is the NaN sentinel. -/
def paddedAt (x : Tensor) (padsB : List Int) (n c : Nat) (js : List Nat) :
    Option ℚ :=
  if (decide (js.length = (x.shape.drop 2).length) &&
      (List.zipWith (fun (j : Nat) (pd : Int × Nat) =>
        decide (pd.1 ≤ (j : Int) ∧ (j : Int) < pd.1 + (pd.2 : Int)))
        js (padsB.zip (x.shape.drop 2))).all id) = true then
    some (x.data (n :: c :: List.zipWith (fun (j : Nat) (p : Int) =>
      ((j : Int) - p).toNat) js padsB))
  else none

/-- `window_vals` with the NaN entries discarded
(`window_vals[np.where(~np.isnan(window_vals))]`). -/
def windowVals (x : Tensor) (padsB kernel strides : List Int) (n c : Nat)
    (os : List Nat) : List ℚ :=
  (idxProduct (windowRanges kernel strides os)).filterMap (paddedAt x padsB n c)

/-- `py_pool`: a float32 tensor of shape `x_shape[0:2] + out_shape`; the
loop fills every position within the per-axis loop counts with the AVG
or MAX reduction of its sentinel-filtered window, the rest of the
`np.zeros` buffer stays 0.  A pooling type other than AVG/MAX raises
`NotImplementedError` at run time (modelled as 0, unreachable from the
handlers). -/
def pyPool (x : Tensor) (kernel strides pads outShape padShape : List Int)
    (poolingType : String) : Tensor :=
  let sp := x.shape.length - 2
  { dtype := .float32
    shape := x.shape.take 2 ++ outShape.map Int.toNat
    data := fun idx =>
      let n := idx.getD 0 0
      let c := idx.getD 1 0
      let os := idx.drop 2
      if (decide (n < x.shape.getD 0 0) && decide (c < x.shape.getD 1 0) &&
          ltAll os (loopCounts x kernel strides padShape)) = true then
        let vals := windowVals x (pads.take sp) kernel strides n c os
        if poolingType = "AVG" then npAverage vals
        else if poolingType = "MAX" then qMaxL vals
        else 0
      else 0 }

/-- `pad_shape[i] = pads[i] + pads[i + spatial_size]` (the explicit-pads
branch of `_compatibility_pool`). -/
def compatPadShape (pads : List Int) (sp : Nat) : List Int :=
  List.zipWith (· + ·) (pads.take sp) (pads.drop sp)

/-- `_get_output_shape("", np.add(x_shape[2:], pad_shape), kernel,
strides)`. -/
def compatOutShape (ds : List Nat) (padShape kernel strides : List Int) :
    List Int :=
  getOutputShape "" (List.zipWith (· + ·) (ds.map Int.ofNat) padShape)
    kernel strides

def getAttrStrD (node : Node) (k : String) (dflt : String) :
    Except LowerErr String :=
  match node.attrs.find k with
  | some (.str s) => .ok s
  | some _ => .error (.invalidAttr k)
  | none => .ok dflt

/-- `_compatibility_pool`.  Returns the post-call node as well: under
SAME_LOWER the loop writes the recomputed pads through the alias into a
present `pads` attribute. -/
def compatibilityPool (node : Node) (env : SymTable) (poolingType : String) :
    Except LowerErr (List Tensor × Node) := do
  let x ← getInput node env 0
  let sp := x.shape.length - 2
  let kernel ← getAttrInts node "kernel_shape"
  let strides ← getAttrIntsD node "strides" (List.replicate sp 1)
  let pads0 ← getAttrIntsD node "pads" (List.replicate (sp * 2) 0)
  let autoPad ← getAttrStrD node "auto_pad" ""
  if autoPad = "SAME_LOWER" then
    let outShape := getOutputShape autoPad ((x.shape.drop 2).map Int.ofNat)
      kernel strides
    let padShape := getPadShape autoPad ((x.shape.drop 2).map Int.ofNat)
      kernel strides outShape
    let pads := (List.range sp).foldl (fun ps i =>
      let e := Int.ediv (padShape.getD i 0) 2
      (ps.set (i + sp) e).set i (padShape.getD i 0 - e)) pads0
    let y := pyPool x kernel strides pads outShape padShape poolingType
    let node' := if (node.attrs.find "pads").isSome then
        { node with attrs := node.attrs.set "pads" (.ints pads) }
      else node
    return ([y], node')
  else if autoPad = "" then
    let padShape := compatPadShape pads0 sp
    let outShape := compatOutShape (x.shape.drop 2) padShape kernel strides
    return ([pyPool x kernel strides pads0 outShape padShape poolingType], node)
  else
    -- unreachable from `_pool` ("Only auto_pad in (SAME_LOWER, "") will
    -- come here"); in Python `out_shape`/`pad_shape` would be unbound
    .error (.invalidAttr "auto_pad")

/-! ### `_pool` and the pooling handlers (lines 162-222, 474-496, 659-662) -/

/-- The native pooling primitive `tf.nn.pool(pooling_type=…)`: external
to the repository, abstracted as a parameter
(x, window_shape, padding, strides, data_format). -/
abbrev PoolFunc := Tensor → List Int → String → List Int → ChannelOrder → Tensor

/-- The native branch of `_pool`: direct call under acceleration,
layout-transposed call otherwise. -/
def nativePool (poolFunc : PoolFunc) (supportCuda : Bool) (x : Tensor)
    (kernel strides : List Int) (padMode : String) : List Tensor :=
  let xRank := x.shape.length
  let sf := (get_data_format xRank supportCuda).1
  let cf := (get_data_format xRank supportCuda).2
  if supportCuda then [poolFunc x kernel padMode strides cf]
  else [tfTranspose
    (poolFunc (tfTranspose x (get_perm_from_formats xRank sf cf))
      kernel padMode strides cf)
    (get_perm_from_formats xRank cf sf)]

def _pool (poolFunc : PoolFunc) (supportCuda : Bool) (node : Node)
    (env : SymTable) (poolingType : String) :
    Except LowerErr (List Tensor × Node) := do
  let x ← getInput node env 0
  let xRank := x.shape.length
  let kernel ← getAttrInts node "kernel_shape"
  let strides ← getAttrIntsD node "strides" (List.replicate (xRank - 2) 1)
  let pad : Option String :=
    match node.attrs.find "auto_pad" with
    | some (.str "SAME_UPPER") => some "SAME"
    | some (.str "VALID") => some "VALID"
    | _ => none
  match pad with
  | none => compatibilityPool node env poolingType
  | some p => return (nativePool poolFunc supportCuda x kernel strides p, node)

def handle_max_pool (poolFunc : PoolFunc) (supportCuda : Bool) (node : Node)
    (env : SymTable) : Except LowerErr (List Tensor × Node) :=
  _pool poolFunc supportCuda node env "MAX"

/-- The tensor `tf.reduce_mean(x, axis=range(rank)[2:], keep_dims=True)`
built by `handle_global_average_pool`. -/
def globalAvgTensor (x : Tensor) : Tensor :=
  { dtype := x.dtype
    shape := x.shape.take 2 ++ List.replicate (x.shape.length - 2) 1
    data := fun idx => npAverage ((allIndices (x.shape.drop 2)).map
      (fun js => x.data (idx.take 2 ++ js))) }

/-- The tensor `tf.reduce_max(x, axis=range(rank)[2:], keep_dims=True)`
built by `handle_global_max_pool`. -/
def globalMaxTensor (x : Tensor) : Tensor :=
  { dtype := x.dtype
    shape := x.shape.take 2 ++ List.replicate (x.shape.length - 2) 1
    data := fun idx => qMaxL ((allIndices (x.shape.drop 2)).map
      (fun js => x.data (idx.take 2 ++ js))) }

def handle_global_average_pool (node : Node) (env : SymTable) :
    Except LowerErr (List Tensor × Node) := do
  let x ← getInput node env 0
  return ([globalAvgTensor x], node)

def handle_global_max_pool (node : Node) (env : SymTable) :
    Except LowerErr (List Tensor × Node) := do
  let x ← getInput node env 0
  return ([globalMaxTensor x], node)

/-- One iteration of the `global_pool` accumulation loop of
`handle_average_pool`:
`global_pool = global_pool and (spatial_dim[i] < kernel_shape[i])`.
Python's `and` short-circuits, so `kernel_shape[i]` is only subscripted
(possibly raising `IndexError`) while the accumulator is still true. -/
def globalPoolStep (spatial : List Nat) (kernel : List Int) (b : Bool)
    (i : Nat) : Except LowerErr Bool :=
  if b then
    match kernel.get? i with
    | some k => pure (decide ((spatial.getD i 0 : Int) < k))
    | none => .error .indexErr
  else pure false

/-- The whole `global_pool` loop. -/
def globalPoolCheck (spatial : List Nat) (kernel : List Int) :
    Except LowerErr Bool :=
  (List.range spatial.length).foldlM (globalPoolStep spatial kernel) true

def handle_average_pool (poolFunc : PoolFunc) (supportCuda : Bool)
    (node : Node) (env : SymTable) : Except LowerErr (List Tensor × Node) := do
  let x ← getInput node env 0
  let spatialDim := x.shape.drop 2
  let kernel ← getAttrIntsD node "kernel_shape" []
  let globalPool ← globalPoolCheck spatialDim kernel
  if globalPool then handle_global_average_pool node env
  else _pool poolFunc supportCuda node env "AVG"

/-- A throwaway instantiation of the abstract native primitive, for
closed statements whose control path never reaches it. -/
def pfDummy : PoolFunc := fun x _ _ _ _ => x

/-- C4: `_pool` routes auto_pad SAME_UPPER and VALID to the native
pooling primitive with the native padding modes "SAME" and "VALID",
while SAME_LOWER and the explicit-pads case (auto_pad absent) always
route to the portable fallback evaluator `compatibilityPool`. -/
theorem pool_routing_C4 (poolFunc : PoolFunc) (supportCuda : Bool)
    (node : Node) (env : SymTable) (nm : String) (x : Tensor)
    (ks st : List Int) (pt : String)
    (hin : node.inputs.get? 0 = some nm) (henv : env.find nm = some x)
    (hker : node.attrs.find "kernel_shape" = some (.ints ks))
    (hstr : getAttrIntsD node "strides"
      (List.replicate (x.shape.length - 2) 1) = .ok st) :
    (node.attrs.find "auto_pad" = some (.str "SAME_UPPER") →
      _pool poolFunc supportCuda node env pt
        = .ok (nativePool poolFunc supportCuda x ks st "SAME", node))
    ∧ (node.attrs.find "auto_pad" = some (.str "VALID") →
      _pool poolFunc supportCuda node env pt
        = .ok (nativePool poolFunc supportCuda x ks st "VALID", node))
    ∧ (node.attrs.find "auto_pad" = some (.str "SAME_LOWER") →
      _pool poolFunc supportCuda node env pt = compatibilityPool node env pt)
    ∧ (node.attrs.find "auto_pad" = none →
      _pool poolFunc supportCuda node env pt = compatibilityPool node env pt) := by
  refine ⟨?_, ?_, ?_, ?_⟩ <;>
  · intro hap
    unfold _pool getInput getAttrInts
    simp only [hin, henv, hker, exceptBind_ok, hstr, hap]
    try rfl

def supNode0 : Node :=
  { name := "mp0", opType := "MaxPool"
    attrs := [("kernel_shape", .ints [1]), ("auto_pad", .str "SAME_UPPER")]
    inputs := ["u0"], outputs := ["v0"] }

def supX0 : Tensor := { shape := [1, 1, 2], data := fun _ => 0 }

def supEnv0 : SymTable := [("u0", supX0)]

/-- C4, witness at a concrete SAME_UPPER node (the other three premises
hold vacuously there). -/
theorem pool_routing_witness_C4 :
    (supNode0.attrs.find "auto_pad" = some (.str "SAME_UPPER") →
      _pool pfDummy true supNode0 supEnv0 "MAX"
        = .ok (nativePool pfDummy true supX0 [1] [1] "SAME", supNode0))
    ∧ (supNode0.attrs.find "auto_pad" = some (.str "VALID") →
      _pool pfDummy true supNode0 supEnv0 "MAX"
        = .ok (nativePool pfDummy true supX0 [1] [1] "VALID", supNode0))
    ∧ (supNode0.attrs.find "auto_pad" = some (.str "SAME_LOWER") →
      _pool pfDummy true supNode0 supEnv0 "MAX"
        = compatibilityPool supNode0 supEnv0 "MAX")
    ∧ (supNode0.attrs.find "auto_pad" = none →
      _pool pfDummy true supNode0 supEnv0 "MAX"
        = compatibilityPool supNode0 supEnv0 "MAX") :=
  pool_routing_C4 pfDummy true supNode0 supEnv0 "u0" supX0 [1] [1] "MAX"
    rfl rfl rfl rfl

/-! ### C8: missing required attributes -/

def apNode0 : Node :=
  { name := "avgpool0", opType := "AveragePool"
    attrs := [], inputs := ["p0"], outputs := ["q0"] }

def apX0 : Tensor := { shape := [1, 1, 2], data := fun _ => 0 }

def apEnv0 : SymTable := [("p0", apX0)]

/-- C8, counterexample.  An average-pool node lacking `kernel_shape`
does fail, but with a bare `IndexError` from `kernel_shape[i]` inside
the `global_pool` loop (the attribute was defaulted to `[]`), so the
error carries no missing-attribute name, contrary to the claim. -/
theorem avg_pool_missing_kernel_error_C8 :
    lowerNodeWith (handle_average_pool pfDummy true) apNode0 apEnv0
      = .error ("avgpool0", .indexErr)
    ∧ LowerErr.indexErr ≠ LowerErr.missingAttr "kernel_shape" := by
  constructor
  · rfl
  · decide

/-- C8, amended.  Rules that subscript a required attribute directly do
fail on its absence with a `KeyError` naming the attribute, and the
dispatch wrapper attaches the node name: a max-pool node without
`kernel_shape` and an arg_max/arg_min node without `axis` surface
`(node name, missing attribute)` to the caller; `handle_average_pool`,
however, defaults a missing `kernel_shape` to `[]` and fails with a
nameless `IndexError` instead. -/
theorem missing_attr_error_amended_C8 (poolFunc : PoolFunc)
    (supportCuda : Bool) (nodeM nodeA : Node) (envM envA : SymTable)
    (nmM nmA : String) (xM xA : Tensor)
    (hinM : nodeM.inputs.get? 0 = some nmM)
    (henvM : envM.find nmM = some xM)
    (hkerM : nodeM.attrs.find "kernel_shape" = none)
    (hinA : nodeA.inputs.get? 0 = some nmA)
    (henvA : envA.find nmA = some xA)
    (haxA : nodeA.attrs.find "axis" = none) :
    lowerNodeWith (handle_max_pool poolFunc supportCuda) nodeM envM
      = .error (nodeM.name, .missingAttr "kernel_shape")
    ∧ lowerNodeWith handle_arg_max nodeA envA
      = .error (nodeA.name, .missingAttr "axis")
    ∧ lowerNodeWith handle_arg_min nodeA envA
      = .error (nodeA.name, .missingAttr "axis") := by
  refine ⟨?_, ?_, ?_⟩
  · unfold lowerNodeWith handle_max_pool _pool getInput getAttrInts
    simp only [hinM, henvM, hkerM]
    rfl
  · unfold lowerNodeWith handle_arg_max getInput getAttrInt
    simp only [hinA, henvA, haxA]
    rfl
  · unfold lowerNodeWith handle_arg_min getInput getAttrInt
    simp only [hinA, henvA, haxA]
    rfl

def mpNode1 : Node :=
  { name := "mp1", opType := "MaxPool"
    attrs := [], inputs := ["p0"], outputs := ["q1"] }

def argNode1 : Node :=
  { name := "arg1", opType := "ArgMax"
    attrs := [], inputs := ["p0"], outputs := ["q2"] }

/-- C8, witness for the amended theorem at concrete nodes. -/
theorem missing_attr_error_amended_witness_C8 :
    lowerNodeWith (handle_max_pool pfDummy true) mpNode1 apEnv0
      = .error (mpNode1.name, .missingAttr "kernel_shape")
    ∧ lowerNodeWith handle_arg_max argNode1 apEnv0
      = .error (argNode1.name, .missingAttr "axis")
    ∧ lowerNodeWith handle_arg_min argNode1 apEnv0
      = .error (argNode1.name, .missingAttr "axis") :=
  missing_attr_error_amended_C8 pfDummy true mpNode1 argNode1 apEnv0 apEnv0
    "p0" "p0" { shape := [1, 1, 2], data := fun _ => 0 }
    { shape := [1, 1, 2], data := fun _ => 0 } rfl rfl rfl rfl rfl rfl

def argNode0 : Node :=
  { name := "arg0", opType := "ArgMax"
    attrs := [("axis", .int 0)], inputs := ["a0"], outputs := ["b0"] }

def argX0 : Tensor := { shape := [2], data := fun _ => 0 }

def argEnv0 : SymTable := [("a0", argX0)]

/-- C10, witness: the keepdims-absent case at a concrete rank-1 tensor. -/
theorem arg_max_min_keepdims_witness_C10 :
    handle_arg_max argNode0 argEnv0 = .ok ([tfArgmax argX0 0],
        if argNode0.attrs.find "keepdims" = some (.int 0) then [] else [argMaxWarn])
    ∧ handle_arg_min argNode0 argEnv0 = .ok ([tfArgmin argX0 0],
        if argNode0.attrs.find "keepdims" = some (.int 0) then [] else [argMinWarn])
    ∧ (tfArgmax argX0 0).shape.length + 1 = argX0.shape.length
    ∧ (tfArgmin argX0 0).shape.length + 1 = argX0.shape.length :=
  arg_max_min_keepdims_C10 argNode0 argEnv0 "a0" argX0 0 rfl rfl rfl
    (by decide) (by decide) (Or.inl rfl)

/-! ### Helper lemmas for the pooling analysis -/

/-- Pointwise agreement of two tensors: same element type, same shape,
same values at every in-range index. -/
def Tensor.EqOn (t u : Tensor) : Prop :=
  t.dtype = u.dtype ∧ t.shape = u.shape ∧
    ∀ idx ∈ allIndices t.shape, t.data idx = u.data idx

/-- The reduction kinds of the portable fallback. -/
inductive Reduction where
  | avg
  | maxr
  deriving DecidableEq, Repr

def specReduce : Reduction → List ℚ → ℚ
  | .avg => npAverage
  | .maxr => qMaxL

/-- First produced tensor of a lowering result (for closed statements). -/
def firstOut (r : Except LowerErr (List Tensor × Node)) : Tensor :=
  match r with
  | .ok (t :: _, _) => t
  | _ => default

theorem mem_natRange {a b m : Nat} : m ∈ natRange a b ↔ a ≤ m ∧ m < b := by
  unfold natRange
  simp only [List.mem_map, List.mem_range]
  constructor
  · rintro ⟨i, hi, rfl⟩
    omega
  · intro h
    exact ⟨m - a, by omega, by omega⟩

theorem mem_idxProduct : ∀ {rs : List (Nat × Nat)} {js : List Nat},
    js ∈ idxProduct rs ↔
      List.Forall₂ (fun (j : Nat) (r : Nat × Nat) => r.1 ≤ j ∧ j < r.2) js rs := by
  intro rs
  induction rs with
  | nil =>
      intro js
      simp [idxProduct, List.forall₂_nil_right_iff]
  | cons r rs ih =>
      intro js
      simp only [idxProduct, List.mem_flatMap, List.mem_map]
      constructor
      · rintro ⟨i, hi, t, ht, rfl⟩
        exact List.Forall₂.cons (mem_natRange.mp hi) (ih.mp ht)
      · intro h
        cases h with
        | cons hj ht => exact ⟨_, mem_natRange.mpr hj, _, ih.mpr ht, rfl⟩

theorem mem_allIndices {shape : List Nat} {js : List Nat} :
    js ∈ allIndices shape ↔ List.Forall₂ (· < ·) js shape := by
  unfold allIndices
  rw [mem_idxProduct, List.forall₂_map_right_iff]
  constructor
  · exact fun h => h.imp (fun _ _ hab => hab.2)
  · exact fun h => h.imp (fun _ _ hab => ⟨Nat.zero_le _, hab⟩)

theorem ltAll_eq_true : ∀ (os bs : List Nat),
    ltAll os bs = true ↔ List.Forall₂ (· < ·) os bs
  | [], [] => by simp [ltAll]
  | [], _ :: _ => by simp [ltAll]
  | _ :: _, [] => by simp [ltAll]
  | o :: os, b :: bs => by
      simp [ltAll, List.forall₂_cons, ltAll_eq_true os bs]

theorem filterMap_eq_map_of_mem {α β : Type} (g : α → Option β) (f : α → β) :
    ∀ (l : List α), (∀ a ∈ l, g a = some (f a)) → l.filterMap g = l.map f
  | [], _ => rfl
  | a :: l, h => by
      rw [List.filterMap_cons, h a (by simp), List.map_cons,
        filterMap_eq_map_of_mem g f l (fun b hb => h b (by simp [hb]))]

theorem zipWith_replicate_same {α β γ : Type} (f : α → β → γ) (a : α) (b : β) :
    ∀ n, List.zipWith f (List.replicate n a) (List.replicate n b)
      = List.replicate n (f a b)
  | 0 => rfl
  | n + 1 => by
      simp [List.replicate_succ, zipWith_replicate_same f a b n]

theorem zipWith_replicate_right {α β γ : Type} (f : α → β → γ) (b : β) :
    ∀ (l : List α), List.zipWith f l (List.replicate l.length b)
      = l.map (fun a => f a b)
  | [] => rfl
  | a :: l => by
      simp [List.replicate_succ, zipWith_replicate_right f b l]

theorem forall₂_replicate_lt_one :
    ∀ {os : List Nat} {n : Nat},
      List.Forall₂ (· < ·) os (List.replicate n 1) → os = List.replicate n 0 := by
  intro os
  induction os with
  | nil =>
      intro n h
      have := (List.forall₂_nil_left_iff.mp h).symm
      cases n with
      | zero => rfl
      | succ n => simp [List.replicate_succ] at this
  | cons o os ih =>
      intro n h
      cases n with
      | zero => simp [List.forall₂_nil_right_iff] at h
      | succ n =>
          rw [List.replicate_succ] at h
          cases h with
          | cons ho ht =>
              have : o = 0 := by omega
              rw [List.replicate_succ, this, ih ht]

theorem forall₂_replicate_zero_lt_one (n : Nat) :
    List.Forall₂ (· < ·) (List.replicate n 0) (List.replicate n 1) := by
  induction n with
  | zero => exact List.Forall₂.nil
  | succ n ih =>
      rw [List.replicate_succ, List.replicate_succ]
      exact List.Forall₂.cons Nat.zero_lt_one ih

/-- The declared output extent of the explicit-pads branch coincides
with the number of positions the `py_pool` loop fills, per axis. -/
theorem toNat_ceil_eq_loopCount (d : Nat) (p k s : Int)
    (_hp : 0 ≤ p) (_hk : 1 ≤ k) (hs : 1 ≤ s) :
    (ceilDivQ ((d : Int) + p - (k - 1)) s).toNat = loopCount d p k s := by
  by_cases h : k ≤ (d : Int) + p
  · have h1 : (0 : Int) ≤ (d : Int) + p - (k - 1) := by omega
    unfold ceilDivQ loopCount
    rw [if_pos h1, if_pos h]
    have h2 : ((d : Int) + p - (k - 1)).toNat
        = ((d : Int) + p - k).toNat + 1 := by omega
    rw [h2]
    have h3 : ((d : Int) + p - k).toNat + 1 + (s.toNat - 1)
        = ((d : Int) + p - k).toNat + s.toNat := by omega
    rw [h3, Nat.add_div_right _ (by omega), Int.toNat_natCast]
  · unfold ceilDivQ loopCount
    rw [if_neg h]
    by_cases h1 : (0 : Int) ≤ (d : Int) + p - (k - 1)
    · have h2 : (d : Int) + p - (k - 1) = 0 := by omega
      rw [if_pos h1, h2]
      have h3 : (0 : Int).toNat + (s.toNat - 1) = s.toNat - 1 := by omega
      rw [h3, Int.toNat_natCast, Nat.div_eq_of_lt (by omega)]
    · rw [if_neg h1]
      exact Int.toNat_of_nonpos (neg_nonpos_of_nonneg (Int.natCast_nonneg _))

@[simp] theorem zipWith3_cons {α β γ δ : Type} (f : α → β → γ → δ)
    (a : α) (as : List α) (b : β) (bs : List β) (c : γ) (cs : List γ) :
    zipWith3 f (a :: as) (b :: bs) (c :: cs) = f a b c :: zipWith3 f as bs cs :=
  rfl

theorem getOutputShape_explicit (inSp ks ss : List Int) :
    getOutputShape "" inSp ks ss
      = zipWith3 (fun d k s => ceilDivQ (d - (k - 1)) s) inSp ks ss := by
  unfold getOutputShape
  rw [if_neg (by decide), if_pos (by decide)]

/-- List-level version of `toNat_ceil_eq_loopCount`, giving the guard
bound of `py_pool` for the explicit-pads branch. -/
theorem map_toNat_compatOutShape_eq_loopCounts :
    ∀ (ds : List Nat) (psh ks ss : List Int),
      psh.length = ds.length → ks.length = ds.length → ss.length = ds.length →
      (∀ p ∈ psh, 0 ≤ p) → (∀ k ∈ ks, 1 ≤ k) → (∀ s ∈ ss, 1 ≤ s) →
      (getOutputShape "" (List.zipWith (· + ·) (ds.map Int.ofNat) psh) ks ss).map
          Int.toNat
        = zipWith3 (fun (dp : Nat × Int) k s => loopCount dp.1 dp.2 k s)
            (ds.zip psh) ks ss := by
  intro ds
  induction ds with
  | nil =>
      intro psh ks ss hp hk hs _ _ _
      rw [List.length_nil] at hp hk hs
      rw [List.eq_nil_of_length_eq_zero hp, List.eq_nil_of_length_eq_zero hk,
        List.eq_nil_of_length_eq_zero hs]
      rfl
  | cons d ds ih =>
      intro psh ks ss hp hk hs hppos hkpos hspos
      cases psh with
      | nil => simp at hp
      | cons p psh =>
          cases ks with
          | nil => simp at hk
          | cons k ks =>
              cases ss with
              | nil => simp at hs
              | cons s ss =>
                  rw [getOutputShape_explicit] at *
                  simp only [List.map_cons, List.zipWith_cons_cons,
                    List.zip_cons_cons, zipWith3_cons, List.map_cons]
                  have hd : (ceilDivQ (Int.ofNat d + p - (k - 1)) s).toNat
                      = loopCount d p k s :=
                    toNat_ceil_eq_loopCount d p k s (hppos p (by simp))
                      (hkpos k (by simp)) (hspos s (by simp))
                  rw [hd]
                  congr 1
                  have := ih psh ks ss (by simpa using hp) (by simpa using hk)
                    (by simpa using hs)
                    (fun q hq => hppos q (by simp [hq]))
                    (fun q hq => hkpos q (by simp [hq]))
                    (fun q hq => hspos q (by simp [hq]))
                  rw [getOutputShape_explicit] at this
                  exact this

theorem getAttrIntsD_of_none {node : Node} {k : String} {d : List Int}
    (h : node.attrs.find k = none) : getAttrIntsD node k d = .ok d := by
  unfold getAttrIntsD
  rw [h]

theorem compatPadShape_length (ps : List Int) (sp : Nat)
    (h : ps.length = 2 * sp) : (compatPadShape ps sp).length = sp := by
  unfold compatPadShape
  rw [List.length_zipWith, List.length_take, List.length_drop]
  omega

theorem zipWith_add_nonneg : ∀ (a b : List Int), (∀ p ∈ a, 0 ≤ p) →
    (∀ p ∈ b, 0 ≤ p) → ∀ q ∈ List.zipWith (· + ·) a b, 0 ≤ q
  | [], _, _, _, q, hq => by simp at hq
  | _ :: _, [], _, _, q, hq => by simp at hq
  | x :: a, y :: b, ha, hb, q, hq => by
      rw [List.zipWith_cons_cons] at hq
      rcases List.mem_cons.mp hq with h | h
      · have h1 := ha x (by simp)
        have h2 := hb y (by simp)
        omega
      · exact zipWith_add_nonneg a b (fun p hp => ha p (by simp [hp]))
          (fun p hp => hb p (by simp [hp])) q h

theorem compatPadShape_nonneg (ps : List Int) (sp : Nat)
    (h : ∀ p ∈ ps, 0 ≤ p) : ∀ q ∈ compatPadShape ps sp, 0 ≤ q :=
  zipWith_add_nonneg _ _ (fun p hp => h p (List.take_subset _ _ hp))
    (fun p hp => h p (List.drop_subset _ _ hp))

theorem foldlM_globalPoolStep_false (spatial : List Nat) (kernel : List Int) :
    ∀ l : List Nat,
      l.foldlM (globalPoolStep spatial kernel) false = .ok false
  | [] => rfl
  | i :: l => by
      rw [List.foldlM_cons]
      show (Except.ok false >>= _) = _
      rw [exceptBind_ok]
      exact foldlM_globalPoolStep_false spatial kernel l

theorem globalPoolCheck_head_not_lt (d : Nat) (ds : List Nat)
    (ks : List Int) (k0 : Int) (hk : ks.get? 0 = some k0)
    (hlt : ¬ ((d : Int) < k0)) :
    globalPoolCheck (d :: ds) ks = .ok false := by
  unfold globalPoolCheck
  rw [List.length_cons, List.range_succ_eq_map, List.foldlM_cons]
  have h0 : globalPoolStep (d :: ds) ks true 0 = pure false := by
    unfold globalPoolStep
    rw [if_pos rfl, hk]
    simp [hlt]
  rw [h0]
  show (Except.ok false >>= _) = _
  rw [exceptBind_ok]
  exact foldlM_globalPoolStep_false _ _ _

theorem foldlM_globalPoolStep_shift (d : Nat) (ds : List Nat) (k0 : Int)
    (ks : List Int) (l : List Nat) (b : Bool) :
    l.foldlM (fun acc i => globalPoolStep (d :: ds) (k0 :: ks) acc (Nat.succ i)) b
      = l.foldlM (globalPoolStep ds ks) b := by
  have h : (fun (acc : Bool) (i : Nat) =>
      globalPoolStep (d :: ds) (k0 :: ks) acc (Nat.succ i))
      = globalPoolStep ds ks := by
    funext acc i
    rfl
  rw [h]

theorem globalPoolCheck_all_lt : ∀ (ds : List Nat) (ks : List Int),
    List.Forall₂ (fun (d : Nat) (k : Int) => (d : Int) < k) ds ks →
    globalPoolCheck ds ks = .ok true
  | [], _, _ => rfl
  | d :: ds, _, h => by
      rw [List.forall₂_cons_left_iff] at h
      obtain ⟨k0, ks, hd, ht, rfl⟩ := h
      unfold globalPoolCheck
      rw [List.length_cons, List.range_succ_eq_map, List.foldlM_cons]
      have h0 : globalPoolStep (d :: ds) (k0 :: ks) true 0 = pure true := by
        unfold globalPoolStep
        rw [if_pos rfl]
        simp [hd]
      rw [h0]
      show (Except.ok true >>= _) = _
      rw [exceptBind_ok, List.foldlM_map, foldlM_globalPoolStep_shift]
      exact globalPoolCheck_all_lt ds ks ht

/-- Running `_compatibility_pool` in the explicit-pads branch (auto_pad
absent): the node is returned untouched and the single output is the
`py_pool` tensor over the computed pad/output shapes. -/
theorem compat_pool_explicit_run (node : Node) (env : SymTable) (nm : String)
    (x : Tensor) (ks ss ps : List Int) (pt : String)
    (hin : node.inputs.get? 0 = some nm) (henv : env.find nm = some x)
    (hker : node.attrs.find "kernel_shape" = some (.ints ks))
    (hstr : getAttrIntsD node "strides"
      (List.replicate (x.shape.length - 2) 1) = .ok ss)
    (hpads : getAttrIntsD node "pads"
      (List.replicate ((x.shape.length - 2) * 2) 0) = .ok ps)
    (hap : node.attrs.find "auto_pad" = none) :
    compatibilityPool node env pt = .ok ([pyPool x ks ss ps
      (compatOutShape (x.shape.drop 2)
        (compatPadShape ps (x.shape.length - 2)) ks ss)
      (compatPadShape ps (x.shape.length - 2)) pt], node) := by
  unfold compatibilityPool getInput getAttrInts getAttrStrD
  simp only [hin, henv, hker, exceptBind_ok, hstr, hpads, hap]
  rfl

theorem loopCount_self (d : Nat) : loopCount d 0 (Int.ofNat d) 1 = 1 := by
  unfold loopCount
  rw [if_pos (by rw [Int.ofNat_eq_natCast]; omega)]
  have h : (d : Int) + 0 - Int.ofNat d = 0 := by
    rw [Int.ofNat_eq_natCast]
    omega
  rw [h]
  rfl

@[simp] theorem windowRanges_cons (k s : Int) (ks ss : List Int)
    (o : Nat) (os : List Nat) :
    windowRanges (k :: ks) (s :: ss) (o :: os)
      = (s.toNat * o, s.toNat * o + k.toNat) :: windowRanges ks ss os := rfl

theorem windowRanges_full : ∀ ds : List Nat,
    windowRanges (ds.map Int.ofNat) (List.replicate ds.length 1)
      (List.replicate ds.length 0) = ds.map (fun d => (0, d))
  | [] => rfl
  | d :: ds => by
      rw [List.map_cons, List.length_cons, List.replicate_succ,
        List.replicate_succ, windowRanges_cons, windowRanges_full ds,
        List.map_cons]
      norm_num

theorem zip_replicate_left {α β : Type} (a : α) : ∀ (l : List β),
    (List.replicate l.length a).zip l = l.map (fun b => (a, b))
  | [] => rfl
  | b :: l => by
      simp only [List.length_cons, List.replicate_succ, List.zip_cons_cons,
        List.map_cons]
      rw [zip_replicate_left a l]

theorem all_zipWith_decide {α β : Type} (p : α → β → Prop)
    [∀ a b, Decidable (p a b)] {as : List α} {bs : List β}
    (h : List.Forall₂ p as bs) :
    (List.zipWith (fun a b => decide (p a b)) as bs).all id = true := by
  induction h with
  | nil => rfl
  | cons hd _ ih => simp [List.all_cons, decide_eq_true hd, ih]

theorem paddedAt_zero (x : Tensor) (N C : Nat) (ds : List Nat)
    (hshape : x.shape = N :: C :: ds) (n c : Nat) (js : List Nat)
    (hj : List.Forall₂ (· < ·) js ds) :
    paddedAt x (List.replicate ds.length 0) n c js
      = some (x.data (n :: c :: js)) := by
  unfold paddedAt
  rw [hshape]
  simp only [List.drop_succ_cons, List.drop_zero]
  have hlen : js.length = ds.length := hj.length_eq
  have hcond : (decide (js.length = ds.length) &&
      (List.zipWith (fun (j : Nat) (pd : Int × Nat) =>
        decide (pd.1 ≤ (j : Int) ∧ (j : Int) < pd.1 + (pd.2 : Int)))
        js ((List.replicate ds.length 0).zip ds)).all id) = true := by
    rw [zip_replicate_left, List.zipWith_map_right]
    have hall := all_zipWith_decide
      (fun (j : Nat) (d : Nat) =>
        ((0 : Int) ≤ (j : Int) ∧ (j : Int) < (0 : Int) + (d : Int)))
      (hj.imp (fun _ _ hb => ⟨Int.natCast_nonneg _, by omega⟩))
    simp only [decide_eq_true hlen, Bool.true_and]
    exact hall
  rw [if_pos hcond]
  have hidx : List.zipWith (fun (j : Nat) (p : Int) => ((j : Int) - p).toNat)
      js (List.replicate ds.length 0) = js := by
    rw [← hlen, zipWith_replicate_right]
    have h : (fun (j : Nat) => (((j : Int) - 0)).toNat) = id := by
      funext j
      simp
    rw [h, List.map_id]
  rw [hidx]

theorem windowVals_full (x : Tensor) (N C : Nat) (ds : List Nat)
    (hshape : x.shape = N :: C :: ds) (n c : Nat) :
    windowVals x (List.replicate ds.length 0) (ds.map Int.ofNat)
      (List.replicate ds.length 1) n c (List.replicate ds.length 0)
      = (allIndices ds).map (fun js => x.data (n :: c :: js)) := by
  unfold windowVals
  rw [windowRanges_full]
  refine filterMap_eq_map_of_mem _ _ _ ?_
  intro js hjs
  exact paddedAt_zero x N C ds hshape n c js (mem_allIndices.mp hjs)

theorem compatPadShape_zero (sp : Nat) :
    compatPadShape (List.replicate (sp * 2) 0) sp
      = List.replicate sp (0 : Int) := by
  unfold compatPadShape
  rw [List.take_replicate, List.drop_replicate]
  have h1 : min sp (sp * 2) = sp := by omega
  have h2 : sp * 2 - sp = sp := by omega
  rw [h1, h2, zipWith_replicate_same]
  norm_num

theorem compatOutShape_equal_kernel (ds : List Nat) :
    compatOutShape ds (List.replicate ds.length 0) (ds.map Int.ofNat)
      (List.replicate ds.length 1) = List.replicate ds.length (1 : Int) := by
  unfold compatOutShape
  rw [getOutputShape_explicit]
  induction ds with
  | nil => rfl
  | cons d ds ih =>
      simp only [List.map_cons, List.length_cons, List.replicate_succ,
        List.zipWith_cons_cons, zipWith3_cons]
      have h1 : Int.ofNat d + 0 - (Int.ofNat d - 1) = 1 := by ring
      rw [h1, show ceilDivQ 1 1 = 1 from by decide, ih]

theorem zip3_loopCount_equal : ∀ ds : List Nat,
    zipWith3 (fun (dp : Nat × Int) k s => loopCount dp.1 dp.2 k s)
      (ds.zip (List.replicate ds.length 0)) (ds.map Int.ofNat)
      (List.replicate ds.length 1) = List.replicate ds.length 1
  | [] => rfl
  | d :: ds => by
      simp only [List.map_cons, List.length_cons, List.replicate_succ,
        List.zip_cons_cons, zipWith3_cons]
      rw [loopCount_self, zip3_loopCount_equal ds]

theorem loopCounts_equal_kernel (x : Tensor) (N C : Nat) (ds : List Nat)
    (hshape : x.shape = N :: C :: ds) :
    loopCounts x (ds.map Int.ofNat) (List.replicate ds.length 1)
      (List.replicate ds.length 0) = List.replicate ds.length 1 := by
  unfold loopCounts
  rw [hshape]
  exact zip3_loopCount_equal ds

/-- For every index inside the declared output shape, the `py_pool`
value is the sentinel-filtered window reduction: the declared output
extent never exceeds the loop counts in the explicit-pads branch. -/
theorem pyPool_data_explicit (x : Tensor) (N C : Nat) (ds : List Nat)
    (ks ss ps outS : List Int) (pt : String)
    (hshape : x.shape = N :: C :: ds)
    (hkl : ks.length = ds.length) (hsl : ss.length = ds.length)
    (hpl : ps.length = 2 * ds.length)
    (hppos : ∀ p ∈ ps, 0 ≤ p) (hkpos : ∀ k ∈ ks, 1 ≤ k)
    (hspos : ∀ s ∈ ss, 1 ≤ s)
    (n c : Nat) (os : List Nat) (hn : n < N) (hc : c < C)
    (hos : List.Forall₂ (· < ·) os
      ((compatOutShape ds (compatPadShape ps ds.length) ks ss).map Int.toNat)) :
    (pyPool x ks ss ps outS (compatPadShape ps ds.length) pt).data (n :: c :: os)
      = (if pt = "AVG" then
          npAverage (windowVals x (ps.take ds.length) ks ss n c os)
        else if pt = "MAX" then
          qMaxL (windowVals x (ps.take ds.length) ks ss n c os)
        else 0) := by
  have hsp : x.shape.length - 2 = ds.length := by
    rw [hshape]
    simp
  have hpshlen : (compatPadShape ps ds.length).length = ds.length :=
    compatPadShape_length ps ds.length hpl
  have hpshpos := compatPadShape_nonneg ps ds.length hppos
  have hmap := map_toNat_compatOutShape_eq_loopCounts ds
    (compatPadShape ps ds.length) ks ss hpshlen hkl hsl hpshpos hkpos hspos
  have hlt : ltAll os (loopCounts x ks ss (compatPadShape ps ds.length))
      = true := by
    refine (ltAll_eq_true _ _).mpr ?_
    have hlc : loopCounts x ks ss (compatPadShape ps ds.length)
        = zipWith3 (fun (dp : Nat × Int) k s => loopCount dp.1 dp.2 k s)
            (ds.zip (compatPadShape ps ds.length)) ks ss := by
      unfold loopCounts
      rw [hshape]
      rfl
    rw [hlc, ← hmap]
    exact hos
  have e1 : x.shape.getD 0 0 = N := by rw [hshape]; rfl
  have e2 : x.shape.getD 1 0 = C := by rw [hshape]; rfl
  have hguard : (decide ((n :: c :: os).getD 0 0 < x.shape.getD 0 0)
      && decide ((n :: c :: os).getD 1 0 < x.shape.getD 1 0)
      && ltAll ((n :: c :: os).drop 2)
        (loopCounts x ks ss (compatPadShape ps ds.length))) = true := by
    show (decide (n < x.shape.getD 0 0) && decide (c < x.shape.getD 1 0)
      && ltAll os (loopCounts x ks ss (compatPadShape ps ds.length))) = true
    rw [e1, e2]
    simp [hn, hc, hlt]
  simp only [pyPool]
  rw [if_pos hguard, hsp]
  rfl

/-- C5: the portable fallback (explicit-pads branch) pads the input with
the NaN sentinel per the given per-side pad amounts, and for every
output position and batch/channel pair gathers the kernel window from
the padded tensor, discards sentinel entries and reduces the rest with
AVG (mean) or MAX; the result carries the declared output spatial shape
and is float32 whatever the input element type. -/
theorem fallback_pool_algorithm_C5 (node : Node) (env : SymTable)
    (nm : String) (x : Tensor) (N C : Nat) (ds : List Nat)
    (ks ss ps : List Int) (pt : String) (red : Reduction)
    (hshape : x.shape = N :: C :: ds)
    (hin : node.inputs.get? 0 = some nm) (henv : env.find nm = some x)
    (hker : node.attrs.find "kernel_shape" = some (.ints ks))
    (hstr : getAttrIntsD node "strides"
      (List.replicate (x.shape.length - 2) 1) = .ok ss)
    (hpads : getAttrIntsD node "pads"
      (List.replicate ((x.shape.length - 2) * 2) 0) = .ok ps)
    (hap : node.attrs.find "auto_pad" = none)
    (hkl : ks.length = ds.length) (hsl : ss.length = ds.length)
    (hpl : ps.length = 2 * ds.length)
    (hppos : ∀ p ∈ ps, 0 ≤ p) (hkpos : ∀ k ∈ ks, 1 ≤ k)
    (hspos : ∀ s ∈ ss, 1 ≤ s)
    (hpt : (pt = "AVG" ∧ red = .avg) ∨ (pt = "MAX" ∧ red = .maxr)) :
    ∃ y, compatibilityPool node env pt = .ok ([y], node)
      ∧ y.dtype = .float32
      ∧ y.shape = N :: C ::
          (compatOutShape ds (compatPadShape ps ds.length) ks ss).map Int.toNat
      ∧ ∀ idx ∈ allIndices y.shape,
          y.data idx = specReduce red (windowVals x (ps.take ds.length) ks ss
            (idx.getD 0 0) (idx.getD 1 0) (idx.drop 2)) := by
  have hsp : x.shape.length - 2 = ds.length := by
    rw [hshape]
    simp
  have hdrop : x.shape.drop 2 = ds := by
    rw [hshape]
    rfl
  have hrun := compat_pool_explicit_run node env nm x ks ss ps pt
    hin henv hker hstr hpads hap
  rw [hdrop, hsp] at hrun
  refine ⟨_, hrun, rfl, ?_, ?_⟩
  · show x.shape.take 2 ++ _ = _
    rw [hshape]
    rfl
  · intro idx hidx
    have hshy : (pyPool x ks ss ps
        (compatOutShape ds (compatPadShape ps ds.length) ks ss)
        (compatPadShape ps ds.length) pt).shape
        = N :: C ::
          (compatOutShape ds (compatPadShape ps ds.length) ks ss).map
            Int.toNat := by
      show x.shape.take 2 ++ _ = _
      rw [hshape]
      rfl
    rw [hshy] at hidx
    have hf := mem_allIndices.mp hidx
    rw [List.forall₂_cons_right_iff] at hf
    obtain ⟨n, idx1, hn, hf, rfl⟩ := hf
    rw [List.forall₂_cons_right_iff] at hf
    obtain ⟨c, os, hc, hos, rfl⟩ := hf
    have hd := pyPool_data_explicit x N C ds ks ss ps
      (compatOutShape ds (compatPadShape ps ds.length) ks ss) pt
      hshape hkl hsl hpl hppos hkpos hspos n c os hn hc hos
    rw [hd]
    rcases hpt with ⟨hpt1, hred⟩ | ⟨hpt1, hred⟩ <;> subst hpt1 <;> subst hred
    · rfl
    · rfl

def c5Node : Node :=
  { name := "ap5", opType := "AveragePool"
    attrs := [("kernel_shape", .ints [2]), ("pads", .ints [1, 0])]
    inputs := ["w0"], outputs := ["z0"] }

def c5X : Tensor := { dtype := .int32, shape := [1, 1, 2], data := fun _ => 2 }

def c5Env : SymTable := [("w0", c5X)]

/-- C5, witness: a 1-spatial-axis average pool with one unit of leading
padding on an int32 input. -/
theorem fallback_pool_algorithm_witness_C5 :
    ∃ y, compatibilityPool c5Node c5Env "AVG" = .ok ([y], c5Node)
      ∧ y.dtype = .float32
      ∧ y.shape = 1 :: 1 ::
          (compatOutShape [2] (compatPadShape [1, 0] 1) [2] [1]).map Int.toNat
      ∧ ∀ idx ∈ allIndices y.shape,
          y.data idx = specReduce .avg (windowVals c5X ([1, 0].take 1) [2] [1]
            (idx.getD 0 0) (idx.getD 1 0) (idx.drop 2)) :=
  fallback_pool_algorithm_C5 c5Node c5Env "w0" c5X 1 1 [2] [2] [1] [1, 0]
    "AVG" .avg rfl rfl rfl rfl rfl rfl rfl (by decide) (by decide) (by decide)
    (by decide) (by decide) (by decide) (Or.inl ⟨rfl, rfl⟩)

/-! ### C2: pooling with a kernel covering the whole spatial extent -/

def mpNode0 : Node :=
  { name := "mp2", opType := "MaxPool"
    attrs := [("kernel_shape", .ints [3])], inputs := ["p0"], outputs := ["r0"] }

/-- C2, counterexample.  For a max-pool node whose kernel (3) exceeds the
single spatial dimension (2) — so the claim's premise "kernel equal to or
exceeding each spatial dimension" holds — `handle_max_pool` has no
global-pool special case: it runs the fallback, whose declared output
extent is 0, so the result is empty along the spatial axis instead of
the keep-dims global reduction of shape [1, 1, 1]. -/
theorem max_pool_no_global_special_case_C2 :
    (handle_max_pool pfDummy true mpNode0 apEnv0).map
        (fun r => r.1.map Tensor.shape) = .ok [[1, 1, 0]]
    ∧ (globalMaxTensor apX0).shape = [1, 1, 1]
    ∧ (2 : Int) < 3
    ∧ ¬ Tensor.EqOn (firstOut (handle_max_pool pfDummy true mpNode0 apEnv0))
        (globalMaxTensor apX0) := by
  refine ⟨rfl, rfl, by decide, ?_⟩
  intro h
  have hs := h.2.1
  revert hs
  decide

/-- A pooling kernel exactly equal to the spatial extent (default strides
and pads) makes the fallback produce the full-extent reduction with
keep-dims shape. -/
theorem pyPool_equal_kernel_eqOn (x : Tensor) (N C : Nat) (ds : List Nat)
    (hshape : x.shape = N :: C :: ds) (hdty : x.dtype = DType.float32)
    (hpos : ∀ d ∈ ds, 1 ≤ d) (pt : String) (red : Reduction)
    (hpt : (pt = "AVG" ∧ red = .avg) ∨ (pt = "MAX" ∧ red = .maxr)) :
    Tensor.EqOn
      (pyPool x (ds.map Int.ofNat) (List.replicate ds.length 1)
        (List.replicate (ds.length * 2) 0) (List.replicate ds.length (1 : Int))
        (List.replicate ds.length (0 : Int)) pt)
      (match red with
        | .avg => globalAvgTensor x
        | .maxr => globalMaxTensor x) := by
  have hsp : x.shape.length - 2 = ds.length := by
    rw [hshape]
    simp
  have hdrop : x.shape.drop 2 = ds := by
    rw [hshape]
    rfl
  have hshL : (pyPool x (ds.map Int.ofNat) (List.replicate ds.length 1)
      (List.replicate (ds.length * 2) 0) (List.replicate ds.length (1 : Int))
      (List.replicate ds.length (0 : Int)) pt).shape
      = N :: C :: List.replicate ds.length 1 := by
    show x.shape.take 2 ++ (List.replicate ds.length (1 : Int)).map Int.toNat = _
    rw [hshape, List.map_replicate]
    rfl
  refine ⟨?_, ?_, ?_⟩
  · cases red <;> exact hdty.symm
  · cases red <;>
    · show x.shape.take 2 ++ (List.replicate ds.length (1 : Int)).map Int.toNat
        = x.shape.take 2 ++ List.replicate (x.shape.length - 2) 1
      rw [List.map_replicate, hsp]
      rfl
  · intro idx hidx
    rw [hshL] at hidx
    have hf := mem_allIndices.mp hidx
    rw [List.forall₂_cons_right_iff] at hf
    obtain ⟨n, idx1, hn, hf, rfl⟩ := hf
    rw [List.forall₂_cons_right_iff] at hf
    obtain ⟨c, os, hc, hos, rfl⟩ := hf
    have hos0 : os = List.replicate ds.length 0 := forall₂_replicate_lt_one hos
    subst hos0
    have hos' : List.Forall₂ (· < ·) (List.replicate ds.length 0)
        ((compatOutShape ds (compatPadShape (List.replicate (ds.length * 2) 0)
          ds.length) (ds.map Int.ofNat) (List.replicate ds.length 1)).map
          Int.toNat) := by
      rw [compatPadShape_zero, compatOutShape_equal_kernel, List.map_replicate]
      exact forall₂_replicate_zero_lt_one ds.length
    have hd := pyPool_data_explicit x N C ds (ds.map Int.ofNat)
      (List.replicate ds.length 1) (List.replicate (ds.length * 2) 0)
      (List.replicate ds.length (1 : Int)) pt hshape (by simp) (by simp)
      (by simp [Nat.mul_comm])
      (fun p hp => by rw [List.eq_of_mem_replicate hp])
      (fun k hk => by
        obtain ⟨d, hd, rfl⟩ := List.mem_map.mp hk
        rw [Int.ofNat_eq_natCast]
        exact_mod_cast hpos d hd)
      (fun s hs => by rw [List.eq_of_mem_replicate hs])
      n c (List.replicate ds.length 0) hn hc hos'
    rw [compatPadShape_zero] at hd
    have htake : (List.replicate (ds.length * 2) (0 : Int)).take ds.length
        = List.replicate ds.length (0 : Int) := by
      rw [List.take_replicate]
      congr 1
      omega
    rw [htake, windowVals_full x N C ds hshape n c] at hd
    rw [hd]
    rcases hpt with ⟨hpt1, hred⟩ | ⟨hpt1, hred⟩ <;> subst hpt1 <;> subst hred
    · show npAverage _
        = npAverage ((allIndices (x.shape.drop 2)).map _)
      rw [hdrop]
      rfl
    · show qMaxL _
        = qMaxL ((allIndices (x.shape.drop 2)).map _)
      rw [hdrop]
      rfl

/-- C2, amended.  `handle_average_pool` takes its global special case
only when every spatial dimension is strictly smaller than the kernel;
`handle_max_pool` has no special case at all.  When the kernel exactly
equals the spatial extent (default strides, no padding), both handlers
still produce the full-extent reduction (mean resp. max) with keep-dims
shape through the portable fallback; when the kernel strictly exceeds
every spatial dimension, `handle_average_pool` routes to the global rule
and equals the full-extent mean, but `handle_max_pool` does not (the
counterexample shows it yields an empty tensor there). -/
theorem pool_global_equivalence_amended_C2 (poolFunc : PoolFunc)
    (supportCuda : Bool) (nodeE nodeG : Node) (env : SymTable) (nm : String)
    (x : Tensor) (N C : Nat) (ds : List Nat) (ksG : List Int)
    (hshape : x.shape = N :: C :: ds) (hne : ds ≠ [])
    (hpos : ∀ d ∈ ds, 1 ≤ d) (hdty : x.dtype = DType.float32)
    (hinE : nodeE.inputs.get? 0 = some nm) (henv : env.find nm = some x)
    (hkerE : nodeE.attrs.find "kernel_shape" = some (.ints (ds.map Int.ofNat)))
    (hstrE : nodeE.attrs.find "strides" = none)
    (hpadE : nodeE.attrs.find "pads" = none)
    (hapE : nodeE.attrs.find "auto_pad" = none)
    (hinG : nodeG.inputs.get? 0 = some nm)
    (hkerG : nodeG.attrs.find "kernel_shape" = some (.ints ksG))
    (hG : List.Forall₂ (fun (d : Nat) (k : Int) => (d : Int) < k) ds ksG) :
    (∃ yA, handle_average_pool poolFunc supportCuda nodeE env
        = .ok ([yA], nodeE) ∧ yA.EqOn (globalAvgTensor x))
    ∧ (∃ yM, handle_max_pool poolFunc supportCuda nodeE env
        = .ok ([yM], nodeE) ∧ yM.EqOn (globalMaxTensor x))
    ∧ handle_average_pool poolFunc supportCuda nodeG env
        = .ok ([globalAvgTensor x], nodeG) := by
  obtain ⟨d0, ds', rfl⟩ : ∃ d0 ds', ds = d0 :: ds' := by
    cases ds with
    | nil => exact absurd rfl hne
    | cons d0 ds' => exact ⟨d0, ds', rfl⟩
  have hsp : x.shape.length - 2 = (d0 :: ds').length := by
    rw [hshape]
    simp
  have hdrop : x.shape.drop 2 = d0 :: ds' := by
    rw [hshape]
    rfl
  have hrunP : ∀ pt : String, compatibilityPool nodeE env pt
      = .ok ([pyPool x ((d0 :: ds').map Int.ofNat)
          (List.replicate (d0 :: ds').length 1)
          (List.replicate ((d0 :: ds').length * 2) 0)
          (List.replicate (d0 :: ds').length (1 : Int))
          (List.replicate (d0 :: ds').length (0 : Int)) pt], nodeE) := by
    intro pt
    have h := compat_pool_explicit_run nodeE env nm x
      ((d0 :: ds').map Int.ofNat) (List.replicate (x.shape.length - 2) 1)
      (List.replicate ((x.shape.length - 2) * 2) 0) pt hinE henv hkerE
      (getAttrIntsD_of_none hstrE) (getAttrIntsD_of_none hpadE) hapE
    rw [hdrop, hsp] at h
    rw [h, compatPadShape_zero, compatOutShape_equal_kernel]
  have havg : handle_average_pool poolFunc supportCuda nodeE env
      = compatibilityPool nodeE env "AVG" := by
    unfold handle_average_pool getInput getAttrIntsD
    simp only [hinE, henv, exceptBind_ok, hkerE]
    rw [hdrop, globalPoolCheck_head_not_lt d0 ds' ((d0 :: ds').map Int.ofNat)
      (Int.ofNat d0) rfl (by rw [Int.ofNat_eq_natCast]; omega), exceptBind_ok]
    unfold _pool getInput getAttrInts
    simp only [hinE, henv, exceptBind_ok, hkerE, getAttrIntsD_of_none hstrE,
      hapE]
    rfl
  have hmax : handle_max_pool poolFunc supportCuda nodeE env
      = compatibilityPool nodeE env "MAX" := by
    unfold handle_max_pool _pool getInput getAttrInts
    simp only [hinE, henv, exceptBind_ok, hkerE, getAttrIntsD_of_none hstrE,
      hapE]
    try rfl
  refine ⟨⟨_, havg.trans (hrunP "AVG"), ?_⟩,
    ⟨_, hmax.trans (hrunP "MAX"), ?_⟩, ?_⟩
  · exact pyPool_equal_kernel_eqOn x N C (d0 :: ds') hshape hdty hpos
      "AVG" .avg (Or.inl ⟨rfl, rfl⟩)
  · exact pyPool_equal_kernel_eqOn x N C (d0 :: ds') hshape hdty hpos
      "MAX" .maxr (Or.inr ⟨rfl, rfl⟩)
  · unfold handle_average_pool getInput getAttrIntsD
    simp only [hinG, henv, exceptBind_ok, hkerG]
    rw [hdrop, globalPoolCheck_all_lt _ _ hG, exceptBind_ok]
    unfold handle_global_average_pool getInput
    simp only [hinG, henv, exceptBind_ok]
    rfl

def c2NodeE : Node :=
  { name := "apE", opType := "AveragePool"
    attrs := [("kernel_shape", .ints [2])], inputs := ["p0"], outputs := ["o1"] }

def c2NodeG : Node :=
  { name := "apG", opType := "AveragePool"
    attrs := [("kernel_shape", .ints [3])], inputs := ["p0"], outputs := ["o2"] }

/-- C2, witness for the amended theorem: a 1×1×2 input, kernel [2]
(exactly covering) and kernel [3] (strictly covering). -/
theorem pool_global_equivalence_amended_witness_C2 :
    (∃ yA, handle_average_pool pfDummy true c2NodeE apEnv0
        = .ok ([yA], c2NodeE) ∧ yA.EqOn (globalAvgTensor apX0))
    ∧ (∃ yM, handle_max_pool pfDummy true c2NodeE apEnv0
        = .ok ([yM], c2NodeE) ∧ yM.EqOn (globalMaxTensor apX0))
    ∧ handle_average_pool pfDummy true c2NodeG apEnv0
        = .ok ([globalAvgTensor apX0], c2NodeG) :=
  pool_global_equivalence_amended_C2 pfDummy true c2NodeE c2NodeG apEnv0
    "p0" apX0 1 1 [2] [3] rfl (by decide) (by decide) rfl rfl rfl rfl rfl rfl
    rfl rfl rfl (List.Forall₂.cons (by decide) List.Forall₂.nil)

/-! ### `handle_softmax` (lines 802-820) -/

/-- Adding a scalar constant to every element (broadcast `x + c`). -/
def Tensor.addConst (t : Tensor) (c : ℚ) : Tensor :=
  { t with data := fun idx => t.data idx + c }

@[simp] theorem addConst_shape (t : Tensor) (c : ℚ) :
    (t.addConst c).shape = t.shape := rfl

@[simp] theorem addConst_dtype (t : Tensor) (c : ℚ) :
    (t.addConst c).dtype = t.dtype := rfl

theorem addConst_data (t : Tensor) (c : ℚ) (idx : List Nat) :
    (t.addConst c).data idx = t.data idx + c := rfl

/-- `tf.nn.softmax(x)`: the softmax along the last axis, with the
exponential abstracted as a parameter `e` (the target engine's `exp` is
external to the repository). -/
def tfSoftmaxLast (e : ℚ → ℚ) (x : Tensor) : Tensor :=
  { dtype := x.dtype
    shape := x.shape
    data := fun idx =>
      e (x.data idx) / qSum ((List.range (x.shape.getD (x.shape.length - 1) 0)).map
        (fun j => e (x.data (idx.set (x.shape.length - 1) j)))) }

/-- `tf.reduce_max(x)` with no axis: the maximum over all elements. -/
def tfReduceMaxAll (x : Tensor) : ℚ :=
  qMaxL ((allIndices x.shape).map x.data)

/-- Row-major linearisation of a multi-index. -/
def flattenIdx : List Nat → List Nat → Nat
  | _ :: ds, i :: is => i * ds.prod + flattenIdx ds is
  | _, _ => 0

/-- Row-major multi-index of a linear position. -/
def unflattenIdx : List Nat → Nat → List Nat
  | [], _ => []
  | _ :: rest, p => (p / rest.prod) :: unflattenIdx rest (p % rest.prod)

/-- `tf.reshape(x, (rows, cols))`, row-major. -/
def tfReshape2 (x : Tensor) (rows cols : Nat) : Tensor :=
  { dtype := x.dtype
    shape := [rows, cols]
    data := fun idx =>
      x.data (unflattenIdx x.shape (idx.getD 0 0 * cols + idx.getD 1 0)) }

/-- `tf.reshape(y, shape)` of a 2-D tensor with `cols` columns back to
`shape`, row-major. -/
def tfReshapeBack (y : Tensor) (shape : List Nat) (cols : Nat) : Tensor :=
  { dtype := y.dtype
    shape := shape
    data := fun idx =>
      y.data [flattenIdx shape idx / cols, flattenIdx shape idx % cols] }

/-- The non-last-axis branch of `handle_softmax`: collapse to 2-D,
subtract the global maximum, softmax, reshape back. -/
def softmax2dPath (e : ℚ → ℚ) (x : Tensor) (axis : Nat) : List Tensor :=
  let rows := (x.shape.take axis).prod
  let cols := (x.shape.drop axis).prod
  let x2 := tfReshape2 x rows cols
  [tfReshapeBack (tfSoftmaxLast e (x2.addConst (-(tfReduceMaxAll x2))))
    x.shape cols]

def handle_softmax (e : ℚ → ℚ) (node : Node) (env : SymTable) :
    Except LowerErr (List Tensor × Node) := do
  let x ← getInput node env 0
  match node.attrs.find "axis" with
  | some (.int a) =>
      if a = (x.shape.length : Int) - 1 then
        return ([tfSoftmaxLast e x], node)
      else
        return (softmax2dPath e x
          (if 0 ≤ a then a else (x.shape.length : Int) + a).toNat, node)
  | some _ => .error (.invalidAttr "axis")
  | none => return (softmax2dPath e x 1, node)

theorem qSum_map_mul (l : List ℚ) (k : ℚ) :
    qSum (l.map (· * k)) = qSum l * k := by
  unfold qSum
  induction l with
  | nil => simp
  | cons a t ih => simp [ih, add_mul]

theorem foldl_max_map_add (c : ℚ) :
    ∀ (t : List ℚ) (a : ℚ),
      (t.map (· + c)).foldl max (a + c) = t.foldl max a + c
  | [], _ => rfl
  | b :: t, a => by
      simp only [List.map_cons, List.foldl_cons]
      rw [max_add_add_right, foldl_max_map_add c t (max a b)]

theorem qMaxL_map_add (l : List ℚ) (c : ℚ) (h : l ≠ []) :
    qMaxL (l.map (· + c)) = qMaxL l + c := by
  cases l with
  | nil => exact absurd rfl h
  | cons a t =>
      unfold qMaxL
      simp only [List.map_cons, List.headD_cons, List.foldl_cons]
      rw [max_add_add_right, foldl_max_map_add c t (max a a)]

theorem allIndices_ne_nil : ∀ (shape : List Nat),
    (∀ d ∈ shape, 0 < d) → allIndices shape ≠ []
  | [], _ => by simp [allIndices, idxProduct]
  | d :: rest, h => by
      have hrest := allIndices_ne_nil rest (fun q hq => h q (by simp [hq]))
      obtain ⟨js, hjs⟩ := List.exists_mem_of_ne_nil _ hrest
      have hmem : (0 :: js) ∈ allIndices (d :: rest) :=
        mem_allIndices.mpr
          (List.Forall₂.cons (h d (by simp)) (mem_allIndices.mp hjs))
      exact List.ne_nil_of_mem hmem

theorem tfReduceMaxAll_addConst (y : Tensor) (c : ℚ)
    (h : allIndices y.shape ≠ []) :
    tfReduceMaxAll (y.addConst c) = tfReduceMaxAll y + c := by
  unfold tfReduceMaxAll
  have h1 : (allIndices (y.addConst c).shape).map (y.addConst c).data
      = ((allIndices y.shape).map y.data).map (· + c) := by
    rw [addConst_shape, List.map_map]
    rfl
  rw [h1]
  exact qMaxL_map_add _ c (by simpa using h)

theorem tfSoftmaxLast_shift (e : ℚ → ℚ)
    (hmul : ∀ a b, e (a + b) = e a * e b) (hne : ∀ a, e a ≠ 0)
    (x : Tensor) (c : ℚ) :
    tfSoftmaxLast e (x.addConst c) = tfSoftmaxLast e x := by
  apply Tensor.ext
  · rfl
  · rfl
  · funext idx
    show e (x.data idx + c) / qSum ((List.range _).map
        (fun j => e (x.data (idx.set (x.shape.length - 1) j) + c)))
      = e (x.data idx) / qSum ((List.range _).map
        (fun j => e (x.data (idx.set (x.shape.length - 1) j))))
    rw [hmul]
    have hfn : (fun j => e (x.data (idx.set (x.shape.length - 1) j) + c))
        = (fun j => e (x.data (idx.set (x.shape.length - 1) j)) * e c) := by
      funext j
      rw [hmul]
    rw [hfn]
    simp only [addConst_shape]
    have hmm : (List.range (x.shape.getD (x.shape.length - 1) 0)).map
        (fun j => e (x.data (idx.set (x.shape.length - 1) j)) * e c)
        = ((List.range (x.shape.getD (x.shape.length - 1) 0)).map
          (fun j => e (x.data (idx.set (x.shape.length - 1) j)))).map
          (· * e c) := by
      rw [List.map_map]
      rfl
    rw [hmm, qSum_map_mul, mul_div_mul_right _ _ (hne c)]

theorem softmax2dPath_shift (e : ℚ → ℚ)
    (_hmul : ∀ a b, e (a + b) = e a * e b) (_hne : ∀ a, e a ≠ 0)
    (x : Tensor) (c : ℚ) (axis : Nat) (hpos : ∀ d ∈ x.shape, 0 < d) :
    softmax2dPath e (x.addConst c) axis = softmax2dPath e x axis := by
  unfold softmax2dPath
  simp only [addConst_shape]
  have h1 : tfReshape2 (x.addConst c) ((x.shape.take axis).prod)
      ((x.shape.drop axis).prod)
      = (tfReshape2 x ((x.shape.take axis).prod)
          ((x.shape.drop axis).prod)).addConst c := rfl
  rw [h1]
  have hnn : allIndices (tfReshape2 x ((x.shape.take axis).prod)
      ((x.shape.drop axis).prod)).shape ≠ [] := by
    apply allIndices_ne_nil
    intro q hq
    have : q = (x.shape.take axis).prod ∨ q = (x.shape.drop axis).prod := by
      simpa [tfReshape2] using hq
    rcases this with rfl | rfl
    · exact List.prod_pos (fun a ha => hpos a (List.take_subset _ _ ha))
    · exact List.prod_pos (fun a ha => hpos a (List.drop_subset _ _ ha))
  rw [tfReduceMaxAll_addConst _ c hnn]
  have h2 : ((tfReshape2 x ((x.shape.take axis).prod)
      ((x.shape.drop axis).prod)).addConst c).addConst
        (-(tfReduceMaxAll (tfReshape2 x ((x.shape.take axis).prod)
          ((x.shape.drop axis).prod)) + c))
      = (tfReshape2 x ((x.shape.take axis).prod)
          ((x.shape.drop axis).prod)).addConst
        (-tfReduceMaxAll (tfReshape2 x ((x.shape.take axis).prod)
          ((x.shape.drop axis).prod))) := by
    apply Tensor.ext
    · rfl
    · rfl
    · funext idx
      show _ + c + -(_ + c) = _ + -_
      ring
  rw [h2]

/-- C7: `handle_softmax` is invariant under adding a scalar constant to
every element of its input, in exact arithmetic: the last-axis branch
cancels the constant between numerator and denominator, and the 2-D
branch additionally subtracts the global maximum, which absorbs the
shift.  The exponential is any function with `e (a+b) = e a * e b` and
`e a ≠ 0`. -/
theorem softmax_shift_invariant_C7 (e : ℚ → ℚ)
    (hmul : ∀ a b, e (a + b) = e a * e b) (hne : ∀ a, e a ≠ 0)
    (node : Node) (env env' : SymTable) (nm : String) (x : Tensor) (c : ℚ)
    (hin : node.inputs.get? 0 = some nm)
    (henv : env.find nm = some x)
    (henv' : env'.find nm = some (x.addConst c))
    (hpos : ∀ d ∈ x.shape, 0 < d) :
    handle_softmax e node env' = handle_softmax e node env := by
  unfold handle_softmax getInput
  simp only [hin, henv, henv', exceptBind_ok]
  cases hfind : node.attrs.find "axis" with
  | none =>
      simp only [softmax2dPath_shift e hmul hne x c 1 hpos]
  | some v =>
      cases v with
      | int a =>
          simp only [addConst_shape]
          by_cases hA : a = (x.shape.length : Int) - 1
          · rw [if_pos hA, if_pos hA, tfSoftmaxLast_shift e hmul hne x c]
          · rw [if_neg hA, if_neg hA,
              softmax2dPath_shift e hmul hne x c _ hpos]
      | ints l => rfl
      | str s => rfl
      | num q => rfl

def c7Node : Node :=
  { name := "sm0", opType := "Softmax"
    attrs := [("axis", .int 0)], inputs := ["s0"], outputs := ["t0"] }

def c7X : Tensor := { shape := [2], data := fun _ => 0 }

def c7Env : SymTable := [("s0", c7X)]

def c7EnvShifted : SymTable := [("s0", c7X.addConst 1)]

/-- C7, witness at a concrete rank-1 tensor with the multiplicative
exponential `e ≡ 1` and the shift `c = 1`. -/
theorem softmax_shift_invariant_witness_C7 :
    handle_softmax (fun _ => 1) c7Node c7EnvShifted
      = handle_softmax (fun _ => 1) c7Node c7Env :=
  softmax_shift_invariant_C7 (fun _ => 1)
    (fun _ _ => (one_mul 1).symm) (fun _ => one_ne_zero)
    c7Node c7Env c7EnvShifted "s0" c7X 1 rfl rfl rfl (by decide)

/-! ### `handle_batch_normalization` (lines 224-254) -/

/-- `node.attrs.get(k, default)` for a float attribute. -/
def getAttrNumD (node : Node) (k : String) (dflt : ℚ) : Except LowerErr ℚ :=
  match node.attrs.find k with
  | some (.num q) => .ok q
  | some _ => .error (.invalidAttr k)
  | none => .ok dflt

/-- Modelled from the spec: `_explicit_broadcast` of the base backend
(`onnx_tf/backend.py`, not under `src/`) reshapes a per-channel tensor
for broadcasting against a rank-`total` activation with the channel axis
at position 1. -/
def explicitBroadcast (t : Tensor) (total : Nat) : Tensor :=
  { dtype := t.dtype
    shape := 1 :: t.shape.getD 0 0 :: List.replicate (total - 2) 1
    data := fun idx => t.data [idx.getD 1 0] }

/-- `tf.nn.moments(x, [0])` (the `spatial` branch): mean and variance
over the batch axis only. -/
def tfMomentsAxis0 (x : Tensor) : Tensor × Tensor :=
  ({ dtype := x.dtype
     shape := x.shape.drop 1
     data := fun idx => npAverage ((List.range (x.shape.getD 0 0)).map
       (fun n => x.data (n :: idx))) },
   { dtype := x.dtype
     shape := x.shape.drop 1
     data := fun idx =>
       npAverage ((List.range (x.shape.getD 0 0)).map
         (fun n => (x.data (n :: idx)
           - npAverage ((List.range (x.shape.getD 0 0)).map
               (fun n' => x.data (n' :: idx)))) ^ 2)) })

/-- `tf.nn.moments(x, [0] + range(2, rank))` (the non-`spatial` branch):
per-channel mean and variance over every non-channel axis. -/
def tfMomentsNonChannel (x : Tensor) : Tensor × Tensor :=
  ({ dtype := x.dtype
     shape := [x.shape.getD 1 0]
     data := fun idx => npAverage ((allIndices (x.shape.eraseIdx 1)).map
       (fun js => x.data (js.insertIdx 1 (idx.getD 0 0)))) },
   { dtype := x.dtype
     shape := [x.shape.getD 1 0]
     data := fun idx =>
       npAverage ((allIndices (x.shape.eraseIdx 1)).map
         (fun js => (x.data (js.insertIdx 1 (idx.getD 0 0))
           - npAverage ((allIndices (x.shape.eraseIdx 1)).map
               (fun js' => x.data (js'.insertIdx 1 (idx.getD 0 0))))) ^ 2)) })

/-- Numpy-style broadcast read: size-1 axes of `t` pin their coordinate
to 0. -/
def Tensor.bget (t : Tensor) (idx : List Nat) : ℚ :=
  t.data (List.zipWith (fun (s : Nat) (i : Nat) => if s = 1 then 0 else i)
    t.shape idx)

/-- `tf.nn.batch_normalization(x, mean, variance, offset, scale, eps)`,
with the reciprocal square root abstracted as a parameter. -/
def tfBatchNormalization (rsqrt : ℚ → ℚ) (x mean variance offset scale : Tensor)
    (eps : ℚ) : Tensor :=
  { dtype := x.dtype
    shape := x.shape
    data := fun idx => (x.data idx - mean.bget idx)
      * rsqrt (variance.bget idx + eps) * scale.bget idx + offset.bget idx }

/-- Scalar multiple of a tensor (`t * momentum`). -/
def Tensor.scaleC (t : Tensor) (k : ℚ) : Tensor :=
  { t with data := fun i => t.data i * k }

/-- Elementwise sum of two same-shape tensors. -/
def Tensor.add2 (t u : Tensor) : Tensor :=
  { t with data := fun i => t.data i + u.data i }

def handle_batch_normalization (rsqrt : ℚ → ℚ) (node : Node)
    (env : SymTable) : Except LowerErr (List Tensor × Node) := do
  let x ← getInput node env 0
  let total := x.shape.length
  let s ← getInput node env 1
  let scale := explicitBroadcast s total
  let b ← getInput node env 2
  let bias := explicitBroadcast b total
  let rm ← getInput node env 3
  let runningMean := explicitBroadcast rm total
  let rv ← getInput node env 4
  let runningVariance := explicitBroadcast rv total
  let eps ← getAttrNumD node "epsilon" (1 / 100000)
  let isTest ← getAttrIntD node "is_test" 0
  if isTest ≠ 0 then
    return ([tfBatchNormalization rsqrt x runningMean runningVariance bias
      scale eps], node)
  else
    let sp ← getAttrIntD node "spatial" 1
    let momentum ← getAttrNumD node "momentum" (9 / 10)
    let mv := if sp = 1 then tfMomentsAxis0 x else tfMomentsNonChannel x
    let mean := explicitBroadcast mv.1 total
    let variance := explicitBroadcast mv.2 total
    let rm2 := (runningMean.scaleC momentum).add2 (mean.scaleC (1 - momentum))
    let rv2 := (runningVariance.scaleC momentum).add2
      (variance.scaleC (1 - momentum))
    return ([tfBatchNormalization rsqrt x rm2 rv2 bias scale eps], node)

theorem bget_explicitBroadcast (t : Tensor) (C total : Nat)
    (ht : t.shape = [C]) (n c : Nat) (js : List Nat) (hc : c < C) :
    (explicitBroadcast t total).bget (n :: c :: js) = t.data [c] := by
  unfold explicitBroadcast Tensor.bget
  simp only [ht]
  show t.data [((if (1 : Nat) = 1 then 0 else n)
    :: (if C = 1 then 0 else c)
    :: List.zipWith _ (List.replicate (total - 2) 1) js).getD 1 0] = t.data [c]
  by_cases hC : C = 1
  · subst hC
    have : c = 0 := by omega
    subst this
    simp
  · simp [hC]

theorem bget_blend (a b : Tensor) (m m' : ℚ) (idx : List Nat)
    (hab : a.shape = b.shape) :
    ((a.scaleC m).add2 (b.scaleC m')).bget idx
      = a.bget idx * m + b.bget idx * m' := by
  unfold Tensor.bget Tensor.add2 Tensor.scaleC
  simp only []
  rw [hab]

/-- C9: in training mode (`is_test` unset; stated for the
non-`spatial` per-channel statistics), `handle_batch_normalization`
blends the batch statistics into the running statistics with the
momentum attribute and uses the blended values only inside the single
normalized tensor it returns; the node comes back untouched, nothing is
written to the symbol table (the rule only reads it), and the blended
running statistics are not among the outputs — the output list has
exactly one element, the normalization. -/
theorem batchnorm_training_blend_C9 (rsqrt : ℚ → ℚ) (node : Node)
    (env : SymTable) (nmx nms nmb nmm nmv : String)
    (x s b rm rv : Tensor) (N C : Nat) (ds : List Nat) (m eps : ℚ)
    (hin0 : node.inputs.get? 0 = some nmx) (henv0 : env.find nmx = some x)
    (hin1 : node.inputs.get? 1 = some nms) (henv1 : env.find nms = some s)
    (hin2 : node.inputs.get? 2 = some nmb) (henv2 : env.find nmb = some b)
    (hin3 : node.inputs.get? 3 = some nmm) (henv3 : env.find nmm = some rm)
    (hin4 : node.inputs.get? 4 = some nmv) (henv4 : env.find nmv = some rv)
    (hist : node.attrs.find "is_test" = none)
    (hspat : node.attrs.find "spatial" = some (.int 0))
    (hmom : getAttrNumD node "momentum" (9 / 10) = .ok m)
    (heps : getAttrNumD node "epsilon" (1 / 100000) = .ok eps)
    (hshape : x.shape = N :: C :: ds)
    (hs : s.shape = [C]) (hb : b.shape = [C])
    (hrm : rm.shape = [C]) (hrv : rv.shape = [C]) :
    handle_batch_normalization rsqrt node env
      = .ok ([tfBatchNormalization rsqrt x
          (((explicitBroadcast rm x.shape.length).scaleC m).add2
            ((explicitBroadcast (tfMomentsNonChannel x).1
              x.shape.length).scaleC (1 - m)))
          (((explicitBroadcast rv x.shape.length).scaleC m).add2
            ((explicitBroadcast (tfMomentsNonChannel x).2
              x.shape.length).scaleC (1 - m)))
          (explicitBroadcast b x.shape.length)
          (explicitBroadcast s x.shape.length) eps], node)
    ∧ ∀ idx ∈ allIndices x.shape,
        (tfBatchNormalization rsqrt x
          (((explicitBroadcast rm x.shape.length).scaleC m).add2
            ((explicitBroadcast (tfMomentsNonChannel x).1
              x.shape.length).scaleC (1 - m)))
          (((explicitBroadcast rv x.shape.length).scaleC m).add2
            ((explicitBroadcast (tfMomentsNonChannel x).2
              x.shape.length).scaleC (1 - m)))
          (explicitBroadcast b x.shape.length)
          (explicitBroadcast s x.shape.length) eps).data idx
        = (x.data idx
            - (rm.data [idx.getD 1 0] * m
              + npAverage ((allIndices (x.shape.eraseIdx 1)).map
                  (fun js => x.data (js.insertIdx 1 (idx.getD 1 0)))) * (1 - m)))
          * rsqrt ((rv.data [idx.getD 1 0] * m
              + npAverage ((allIndices (x.shape.eraseIdx 1)).map
                  (fun js => (x.data (js.insertIdx 1 (idx.getD 1 0))
                    - npAverage ((allIndices (x.shape.eraseIdx 1)).map
                        (fun js' => x.data (js'.insertIdx 1 (idx.getD 1 0)))))
                    ^ 2)) * (1 - m)) + eps)
          * s.data [idx.getD 1 0] + b.data [idx.getD 1 0] := by
  constructor
  · unfold handle_batch_normalization getInput getAttrIntD
    simp only [hin0, henv0, hin1, henv1, hin2, henv2, hin3, henv3, hin4,
      henv4, exceptBind_ok, heps, hist, hspat, hmom]
    rfl
  · intro idx hidx
    have hf := mem_allIndices.mp hidx
    rw [hshape] at hf
    rw [List.forall₂_cons_right_iff] at hf
    obtain ⟨n, idx1, hn, hf, rfl⟩ := hf
    rw [List.forall₂_cons_right_iff] at hf
    obtain ⟨c, js, hc, hjs, rfl⟩ := hf
    show (x.data (n :: c :: js) - Tensor.bget _ (n :: c :: js))
        * rsqrt (Tensor.bget _ (n :: c :: js) + eps)
        * Tensor.bget _ (n :: c :: js) + Tensor.bget _ (n :: c :: js) = _
    rw [bget_blend _ _ _ _ _ (by
        show 1 :: rm.shape.getD 0 0 :: _ = 1 :: (tfMomentsNonChannel x).1.shape.getD 0 0 :: _
        rw [hrm]
        show 1 :: C :: _ = 1 :: (x.shape.getD 1 0) :: _
        rw [hshape]
        rfl),
      bget_blend _ _ _ _ _ (by
        show 1 :: rv.shape.getD 0 0 :: _ = 1 :: (tfMomentsNonChannel x).2.shape.getD 0 0 :: _
        rw [hrv]
        show 1 :: C :: _ = 1 :: (x.shape.getD 1 0) :: _
        rw [hshape]
        rfl),
      bget_explicitBroadcast rm C _ hrm n c js hc,
      bget_explicitBroadcast rv C _ hrv n c js hc,
      bget_explicitBroadcast b C _ hb n c js hc,
      bget_explicitBroadcast s C _ hs n c js hc,
      bget_explicitBroadcast (tfMomentsNonChannel x).1 C _
        (by show [x.shape.getD 1 0] = [C]; rw [hshape]; rfl) n c js hc,
      bget_explicitBroadcast (tfMomentsNonChannel x).2 C _
        (by show [x.shape.getD 1 0] = [C]; rw [hshape]; rfl) n c js hc]
    rfl

def c9Node : Node :=
  { name := "bn0", opType := "BatchNormalization"
    attrs := [("spatial", .int 0)]
    inputs := ["bx", "bs", "bb", "bm", "bv"], outputs := ["by"] }

def c9X : Tensor := { shape := [2, 1], data := fun _ => 1 }

def c9P : Tensor := { shape := [1], data := fun _ => 1 }

def c9Env : SymTable :=
  [("bx", c9X), ("bs", c9P), ("bb", c9P), ("bm", c9P), ("bv", c9P)]

/-- C9, witness at a concrete 2×1 input with unit parameter tensors. -/
theorem batchnorm_training_blend_witness_C9 :
    handle_batch_normalization (fun _ => 1) c9Node c9Env
      = .ok ([tfBatchNormalization (fun _ => 1) c9X
          (((explicitBroadcast c9P c9X.shape.length).scaleC (9 / 10)).add2
            ((explicitBroadcast (tfMomentsNonChannel c9X).1
              c9X.shape.length).scaleC (1 - 9 / 10)))
          (((explicitBroadcast c9P c9X.shape.length).scaleC (9 / 10)).add2
            ((explicitBroadcast (tfMomentsNonChannel c9X).2
              c9X.shape.length).scaleC (1 - 9 / 10)))
          (explicitBroadcast c9P c9X.shape.length)
          (explicitBroadcast c9P c9X.shape.length) (1 / 100000)], c9Node)
    ∧ ∀ idx ∈ allIndices c9X.shape,
        (tfBatchNormalization (fun _ => 1) c9X
          (((explicitBroadcast c9P c9X.shape.length).scaleC (9 / 10)).add2
            ((explicitBroadcast (tfMomentsNonChannel c9X).1
              c9X.shape.length).scaleC (1 - 9 / 10)))
          (((explicitBroadcast c9P c9X.shape.length).scaleC (9 / 10)).add2
            ((explicitBroadcast (tfMomentsNonChannel c9X).2
              c9X.shape.length).scaleC (1 - 9 / 10)))
          (explicitBroadcast c9P c9X.shape.length)
          (explicitBroadcast c9P c9X.shape.length) (1 / 100000)).data idx
        = (c9X.data idx
            - (c9P.data [idx.getD 1 0] * (9 / 10)
              + npAverage ((allIndices (c9X.shape.eraseIdx 1)).map
                  (fun js => c9X.data (js.insertIdx 1 (idx.getD 1 0))))
                * (1 - 9 / 10)))
          * (fun _ => (1 : ℚ)) ((c9P.data [idx.getD 1 0] * (9 / 10)
              + npAverage ((allIndices (c9X.shape.eraseIdx 1)).map
                  (fun js => (c9X.data (js.insertIdx 1 (idx.getD 1 0))
                    - npAverage ((allIndices (c9X.shape.eraseIdx 1)).map
                        (fun js' => c9X.data (js'.insertIdx 1 (idx.getD 1 0)))))
                    ^ 2)) * (1 - 9 / 10)) + 1 / 100000)
          * c9P.data [idx.getD 1 0] + c9P.data [idx.getD 1 0] :=
  batchnorm_training_blend_C9 (fun _ => 1) c9Node c9Env "bx" "bs" "bb" "bm"
    "bv" c9X c9P c9P c9P c9P 2 1 [] (9 / 10) (1 / 100000) rfl rfl rfl rfl rfl
    rfl rfl rfl rfl rfl rfl rfl rfl rfl rfl rfl rfl rfl rfl

/-! ### `_conv` and the convolution handlers (lines 281-396) -/

/-- `node.attrs.get(k, None)` for an integer-list attribute. -/
def getAttrOptInts (node : Node) (k : String) :
    Except LowerErr (Option (List Int)) :=
  match node.attrs.find k with
  | some (.ints l) => .ok (some l)
  | some _ => .error (.invalidAttr k)
  | none => .ok none

/-- The `kernel_shape` assertion of `_conv`: when the attribute is
present it must equal the trailing (spatial) axes of the weight
tensor. -/
def checkKernelShape (node : Node) (inWeights : Tensor) :
    Except LowerErr Unit :=
  match node.attrs.find "kernel_shape" with
  | some (.ints ks) =>
      if (inWeights.shape.drop 2).map Int.ofNat = ks then .ok ()
      else .error (.invalidAttr "kernel_shape")
  | some _ => .error (.invalidAttr "kernel_shape")
  | none => .ok ()

/-- Modelled from the spec: `get_padding_as_op` of the base backend
(`onnx_tf/backend.py`, not under `src/`) applies the explicit per-side
pad amounts `[begin1 … beginSp, end1 … endSp]` as a zero pre-padding of
the spatial axes before the native no-padding primitive. -/
def get_padding_as_op (x : Tensor) (pads : List Int) : Tensor :=
  { dtype := x.dtype
    shape := x.shape.take 2 ++ zipWith3 (fun d b e => d + b + e)
      (x.shape.drop 2) ((pads.take (x.shape.length - 2)).map Int.toNat)
      ((pads.drop (x.shape.length - 2)).map Int.toNat)
    data := fun idx =>
      let begs := (pads.take (x.shape.length - 2)).map Int.toNat
      let inner := idx.drop 2
      if (zipWith3 (fun (i b d : Nat) => decide (b ≤ i) && decide (i < b + d))
          inner begs (x.shape.drop 2)).all id then
        x.data (idx.take 2 ++ List.zipWith (fun i b => i - b) inner begs)
      else 0 }

/-- `tf.split(t, num_or_size_splits=g, axis)`: `g` equal slices along
the (possibly negative) axis. -/
def tfSplit (t : Tensor) (g : Nat) (axis : Int) : List Tensor :=
  let ax := if axis < 0 then t.shape.length - (-axis).toNat else axis.toNat
  let m := t.shape.getD ax 0 / g
  (List.range g).map (fun j =>
    { dtype := t.dtype
      shape := t.shape.set ax m
      data := fun idx => t.data (idx.set ax (j * m + idx.getD ax 0)) })

/-- Read position `c` of the concatenation axis `ax` across a list of
tensors, consuming each tensor's extent in turn. -/
def concatRead (ax : Nat) : List Tensor → Nat → List Nat → ℚ
  | [], _, _ => 0
  | t :: ts, c, idx =>
      if c < t.shape.getD ax 0 then t.data (idx.set ax c)
      else concatRead ax ts (c - t.shape.getD ax 0) idx

/-- `tf.concat(ts, axis)`. -/
def tfConcat (ts : List Tensor) (axis : Int) : Tensor :=
  let t0 := ts.getD 0 default
  let ax := if axis < 0 then t0.shape.length - (-axis).toNat else axis.toNat
  { dtype := t0.dtype
    shape := t0.shape.set ax (ts.foldl (fun n t => n + t.shape.getD ax 0) 0)
    data := fun idx => concatRead ax ts (idx.getD ax 0) idx }

/-- `tf.nn.bias_add(t, bias, data_format)`: the 1-D bias is indexed by
the channel coordinate of the given layout. -/
def tfBiasAdd (t bias : Tensor) (fmt : ChannelOrder) : Tensor :=
  { t with data := fun idx => t.data idx
      + bias.data [idx.getD
          (if fmt = .channelsFirst then 1 else t.shape.length - 1) 0] }

/-- The native convolution primitive `tf.nn.convolution(x, filter,
padding, strides, dilation_rate, data_format)`: external to the
repository, abstracted as a parameter. -/
abbrev ConvFunc := Tensor → Tensor → String → Option (List Int)
  → Option (List Int) → ChannelOrder → Tensor

def _conv (convOp : ConvFunc) (supportCuda : Bool) (node : Node)
    (env : SymTable) (transpose : Bool) :
    Except LowerErr (List Tensor × Node) := do
  let x ← getInput node env 0
  let xRank := x.shape.length
  let sf := (get_data_format xRank supportCuda).1
  let cf := (get_data_format xRank supportCuda).2
  let inWeights ← getInput node env 1
  let wRank := inWeights.shape.length
  let perm := if transpose then natRange 2 wRank ++ [0, 1]
    else natRange 2 wRank ++ [1, 0]
  let _ ← checkKernelShape node inWeights
  let weights := tfTranspose inWeights perm
  let dilations ← getAttrOptInts node "dilations"
  let strides ← getAttrOptInts node "strides"
  let x ← (match node.attrs.find "pads" with
    | some (.ints ps) => pure (get_padding_as_op x ps)
    | some _ => .error (.invalidAttr "pads")
    | none => pure x : Except LowerErr Tensor)
  match node.attrs.find "group" with
  | some (.int g) =>
      let weightGroups := tfSplit weights g.toNat (-1)
      if supportCuda then
        let xs := tfSplit x g.toNat 1
        let convolved := (xs.zip weightGroups).map
          (fun p => convOp p.1 p.2 "VALID" strides dilations cf)
        if node.inputs.length = 2 then
          return ([tfConcat convolved 1], node)
        else do
          let bias ← getInput node env 2
          return ([tfBiasAdd (tfConcat convolved 1) bias cf], node)
      else
        let x2 := tfTranspose x (get_perm_from_formats xRank sf cf)
        let xs := tfSplit x2 g.toNat (-1)
        let convolved := (xs.zip weightGroups).map
          (fun p => convOp p.1 p.2 "VALID" strides dilations cf)
        if node.inputs.length = 2 then
          return ([tfTranspose (tfConcat convolved (-1))
            (get_perm_from_formats xRank cf sf)], node)
        else do
          let bias ← getInput node env 2
          return ([tfTranspose (tfBiasAdd (tfConcat convolved (-1)) bias cf)
            (get_perm_from_formats xRank cf sf)], node)
  | some _ => .error (.invalidAttr "group")
  | none =>
      let x2 := if supportCuda then x
        else tfTranspose x (get_perm_from_formats xRank sf cf)
      let convolved0 := convOp x2 weights "VALID" strides dilations cf
      let convolved := if supportCuda then convolved0
        else tfTranspose convolved0 (get_perm_from_formats xRank cf sf)
      if node.inputs.length = 2 then
        return ([convolved], node)
      else do
        let bias ← getInput node env 2
        let convolved2 := if supportCuda then convolved
          else tfTranspose convolved (get_perm_from_formats xRank sf cf)
        let output := tfBiasAdd convolved2 bias cf
        return ([if supportCuda then output
          else tfTranspose output (get_perm_from_formats xRank cf sf)], node)

def handle_conv (convOp : ConvFunc) (supportCuda : Bool) (node : Node)
    (env : SymTable) : Except LowerErr (List Tensor × Node) :=
  _conv convOp supportCuda node env false

def handle_conv_transpose (convOp : ConvFunc) (supportCuda : Bool)
    (node : Node) (env : SymTable) : Except LowerErr (List Tensor × Node) :=
  _conv convOp supportCuda node env true

/-- The `convolved` list of `_conv`'s grouped branch under acceleration:
the per-group convolutions of the channel slices of `x` against the
output-channel slices of the transposed weights. -/
def convolvedGroups (convOp : ConvFunc) (x w : Tensor) (g : Nat)
    (strides dilations : Option (List Int)) : List Tensor :=
  ((tfSplit x g 1).zip
    (tfSplit (tfTranspose w (natRange 2 w.shape.length ++ [1, 0])) g (-1))).map
    (fun p => convOp p.1 p.2 "VALID" strides dilations .channelsFirst)

theorem concatRead_uniform (mo : Nat) (ts : List Tensor) :
    ∀ (j cj : Nat) (idx : List Nat),
      (∀ t ∈ ts, t.shape.getD 1 0 = mo) → j < ts.length → cj < mo →
      concatRead 1 ts (j * mo + cj) idx
        = (ts.getD j default).data (idx.set 1 cj) := by
  induction ts with
  | nil => intro j cj idx hmo hj hcj; simp at hj
  | cons t ts ih =>
      intro j cj idx hmo hj hcj
      have hts : t.shape.getD 1 0 = mo := hmo t (by simp)
      cases j with
      | zero =>
          simp only [concatRead, hts, Nat.zero_mul, Nat.zero_add]
          rw [if_pos hcj]
          rfl
      | succ j =>
          simp only [concatRead, hts, Nat.succ_mul]
          rw [if_neg (by omega)]
          have h2 : j * mo + mo + cj - mo = j * mo + cj := by omega
          rw [h2]
          exact ih j cj idx (fun t' ht' => hmo t' (List.mem_cons_of_mem _ ht'))
            (by simpa using hj) hcj

/-- C6: for a convolution node carrying a `group` attribute `g` (no
explicit pads, stated under acceleration so no layout transposes
intervene), `handle_conv` splits the input along the channel axis and
the transposed weights along the output-channel axis into `g` equal
slices, convolves the slice pairs independently, and concatenates the
results along the channel axis in slice order; a bias input is added
exactly once, after the concatenation; and the concatenated tensor is
element-for-element the direct per-group convolutions: when every group
output has channel extent `mo`, the value at channel `j * mo + cj` is
group `j`'s value at channel `cj`. -/
theorem conv_grouped_split_concat_C6 (convOp : ConvFunc) (node : Node)
    (env : SymTable) (nx nw : String) (x w : Tensor) (g : Nat)
    (dil str : Option (List Int))
    (hin0 : node.inputs.get? 0 = some nx) (henv0 : env.find nx = some x)
    (hin1 : node.inputs.get? 1 = some nw) (henv1 : env.find nw = some w)
    (hgroup : node.attrs.find "group" = some (.int (Int.ofNat g)))
    (hks : node.attrs.find "kernel_shape" = none)
    (hpads : node.attrs.find "pads" = none)
    (hdil : getAttrOptInts node "dilations" = .ok dil)
    (hstr : getAttrOptInts node "strides" = .ok str) :
    (node.inputs.length = 2 →
      handle_conv convOp true node env
        = .ok ([tfConcat (convolvedGroups convOp x w g str dil) 1], node))
    ∧ (∀ nb bias, node.inputs.get? 2 = some nb → env.find nb = some bias →
        node.inputs.length = 3 →
        handle_conv convOp true node env
          = .ok ([tfBiasAdd (tfConcat (convolvedGroups convOp x w g str dil) 1)
              bias .channelsFirst], node))
    ∧ (∀ mo : Nat,
        (∀ t ∈ convolvedGroups convOp x w g str dil, t.shape.getD 1 0 = mo) →
        ∀ j cj, j < g → cj < mo → ∀ (i0 : Nat) (rest : List Nat),
          (tfConcat (convolvedGroups convOp x w g str dil) 1).data
              (i0 :: (j * mo + cj) :: rest)
            = ((convolvedGroups convOp x w g str dil).getD j default).data
                (i0 :: cj :: rest)) := by
  refine ⟨fun hlen2 => ?_, fun nb bias hin2 henv2 hlen3 => ?_,
    fun mo hmo j cj hj hcj i0 rest => ?_⟩
  · unfold handle_conv _conv getInput checkKernelShape
    simp only [hin0, henv0, hin1, henv1, hks, hpads, hgroup, hdil, hstr,
      hlen2, exceptBind_ok, Int.toNat_ofNat]
    rfl
  · unfold handle_conv _conv getInput checkKernelShape
    simp only [hin0, henv0, hin1, henv1, hin2, henv2, hks, hpads, hgroup,
      hdil, hstr, hlen3, exceptBind_ok, Int.toNat_ofNat]
    rfl
  · have hlen : (convolvedGroups convOp x w g str dil).length = g := by
      simp [convolvedGroups, tfSplit]
    have h := concatRead_uniform mo (convolvedGroups convOp x w g str dil)
      j cj (i0 :: (j * mo + cj) :: rest) hmo (by rw [hlen]; exact hj) hcj
    simpa [tfConcat] using h

def c6Conv : ConvFunc := fun xi wi _ _ _ _ =>
  { dtype := .float32, shape := [1, 1]
    data := fun _ => xi.data [0, 0] * wi.data [0, 0] }

def c6Node : Node :=
  { name := "conv0", opType := "Conv", attrs := [("group", .int 2)]
    inputs := ["cx", "cw"], outputs := ["cy"] }

def c6X : Tensor := { shape := [1, 2], data := fun idx => (idx.getD 1 0 : ℚ) + 1 }

def c6W : Tensor := { shape := [2, 1], data := fun _ => 1 }

def c6Env : SymTable := [("cx", c6X), ("cw", c6W)]

/-- C6, witness at a concrete two-group instance. -/
theorem conv_grouped_split_concat_witness_C6 :
    (c6Node.inputs.length = 2 →
      handle_conv c6Conv true c6Node c6Env
        = .ok ([tfConcat (convolvedGroups c6Conv c6X c6W 2 none none) 1],
          c6Node))
    ∧ (∀ nb bias, c6Node.inputs.get? 2 = some nb →
        c6Env.find nb = some bias → c6Node.inputs.length = 3 →
        handle_conv c6Conv true c6Node c6Env
          = .ok ([tfBiasAdd
              (tfConcat (convolvedGroups c6Conv c6X c6W 2 none none) 1)
              bias .channelsFirst], c6Node))
    ∧ (∀ mo : Nat,
        (∀ t ∈ convolvedGroups c6Conv c6X c6W 2 none none,
          t.shape.getD 1 0 = mo) →
        ∀ j cj, j < 2 → cj < mo → ∀ (i0 : Nat) (rest : List Nat),
          (tfConcat (convolvedGroups c6Conv c6X c6W 2 none none) 1).data
              (i0 :: (j * mo + cj) :: rest)
            = ((convolvedGroups c6Conv c6X c6W 2 none none).getD j
                default).data (i0 :: cj :: rest)) :=
  conv_grouped_split_concat_C6 c6Conv c6Node c6Env "cx" "cw" c6X c6W 2
    none none rfl rfl rfl rfl rfl rfl rfl rfl rfl

end OnnxTf
